/-
Verification of the AI interview engine of Backend-z.

Shallow embedding of the interview core (ConversationManager,
EvaluationEngine, QuestionStrategyEngine, ScoringReportService,
InterviewSessionService, AIInterviewerOrchestrator) translated from the
TypeScript sources.  External collaborators (PostgreSQL, the LLM, the
question-template table) are modelled as explicit oracle parameters; the
Redis/in-memory key-value store is modelled both at the raw string level
(with an abstract JSON codec, for the TTL claims) and at the parsed-state
level (identifying the JSON round-trip with the identity, for the session
operations).  JavaScript numbers are modelled as `Option ℚ` where `none`
stands for NaN (and the other non-finite values): JS comparisons with NaN
are false and arithmetic propagates it.
-/
import Mathlib

set_option maxHeartbeats 1000000
set_option maxRecDepth 8192

/-! ## JavaScript numbers: `none` = NaN / non-finite -/

/-- A JavaScript number: `some q` is the finite value `q`, `none` stands for
NaN (and, where reachable, the other non-finite results). -/
abbrev JNum := Option ℚ

/-- JS `+` (NaN propagates). -/
def jadd : JNum → JNum → JNum
  | some a, some b => some (a + b)
  | _, _ => none

/-- JS `*` (NaN propagates). -/
def jmul : JNum → JNum → JNum
  | some a, some b => some (a * b)
  | _, _ => none

/-- JS `/` (NaN propagates; division by zero is non-finite, hence `none`). -/
def jdiv : JNum → JNum → JNum
  | some a, some b => if b = 0 then none else some (a / b)
  | _, _ => none

/-- JS `<`: any comparison with NaN is false. -/
def jlt (a b : JNum) : Bool :=
  match a, b with
  | some a, some b => decide (a < b)
  | _, _ => false

/-- JS `>`: any comparison with NaN is false. -/
def jgt (a b : JNum) : Bool :=
  match a, b with
  | some a, some b => decide (b < a)
  | _, _ => false

/-- JS `>=`: any comparison with NaN is false. -/
def jge (a b : JNum) : Bool :=
  match a, b with
  | some a, some b => decide (b ≤ a)
  | _, _ => false

/-- JS `Math.max` (NaN propagates). -/
def jmax : JNum → JNum → JNum
  | some a, some b => some (max a b)
  | _, _ => none

/-- JS `Math.min` (NaN propagates). -/
def jmin : JNum → JNum → JNum
  | some a, some b => some (min a b)
  | _, _ => none

/-- JS `x || 0`: NaN and 0 are falsy, every other number is itself. -/
def jOrZero (x : JNum) : ℚ := x.getD 0

/-- JS `Math.round` (half rounds up; NaN propagates).  Only used inside the
report summary string, which no claim inspects. -/
def jround : JNum → JNum
  | some q => some (⌊q + 1/2⌋ : ℤ)
  | none => none

/-- Printing a JS number (integers print as in JS; for non-integral rationals
our rendering differs from JS decimal notation, but no claim inspects it). -/
def jnumToString : JNum → String
  | some q => toString q
  | none => "NaN"

/-! ## JSON values

The result of `JSON.parse`; the parse itself is a JS builtin, so the
embedding takes the parse *outcome* (`Option Json`, `none` = not parseable)
as the input. -/

inductive Json where
  | jnull : Json
  | jbool : Bool → Json
  | jnum : ℚ → Json
  | jstr : String → Json
  | jarr : List Json → Json
  | jobj : List (String × Json) → Json

/-- JS `Number(s)` on a string: the empty/blank string converts to 0 and
non-negative integer numerals to their value; the remaining literal shapes
(not exercised by any claim) are mapped to NaN. -/
def jsStrToNum (s : String) : JNum :=
  let t := s.trim
  if t = "" then some 0
  else match t.toNat? with
    | some n => some (n : ℚ)
    | none => none

/-- JS `Number(v)` on a parsed JSON value (`Number(null) = 0`,
booleans convert to 0/1, arrays and objects to NaN except the empty array). -/
def jsNumber : Json → JNum
  | .jnull => some 0
  | .jbool b => some (if b then 1 else 0)
  | .jnum q => some q
  | .jstr s => jsStrToNum s
  | .jarr [] => some 0
  | .jarr (_ :: _) => none
  | .jobj _ => none

/-- Property access `v[k]` on a parsed JSON value: `undefined` (here `none`)
unless `v` is an object with the field. -/
def getField (v : Json) (k : String) : Option Json :=
  match v with
  | .jobj fs => (fs.find? (fun p => p.1 == k)).map (·.2)
  | _ => none

/-- `Number(v[k])`: `Number(undefined)` is NaN. -/
def numField (v : Json) (k : String) : JNum :=
  match getField v k with
  | some j => jsNumber j
  | none => none

/-- The unchecked TS cast `obj.x as string[]` applied elementwise: string
elements pass through; other junk values (which no claim inspects) are
collapsed to the empty string. -/
def jsonCastString : Json → String
  | .jstr s => s
  | _ => ""

/-! ## Domain types (src/types/index.ts)

The TS union types (`InterviewPhase`, `InterviewRole`, `DifficultyLevel`,
turn roles, recommendations) are erased at runtime, so they are modelled as
plain strings, exactly as JS compares them. -/

structure AnswerEvaluation where
  score : JNum
  maxScore : JNum
  relevance : JNum
  /-- source field name: `structure` (a Lean keyword) -/
  structureScore : JNum
  depth : JNum
  competencyIds : List String
  redFlags : List String
  feedbackSnippet : String
  normalizedScore : JNum
  deriving Repr, DecidableEq

structure Turn where
  id : String
  role : String
  content : String
  timestamp : String
  questionId : Option String := none
  evaluation : Option AnswerEvaluation := none
  codingStarterCode : Option String := none
  codingLanguage : Option String := none
  isCodingQuestion : Option Bool := none
  deriving Repr, DecidableEq

structure ScheduledCustomQuestion where
  text : String
  difficulty : String
  isCodingQuestion : Option Bool := none
  language : Option String := none
  starterCode : Option String := none
  deriving Repr, DecidableEq

structure InterviewState where
  interviewId : String
  candidateId : String
  resumeContext : Option String := none
  role : String
  phase : String
  startedAt : String
  endedAt : Option String := none
  turns : List Turn
  topicCoverage : List (String × Bool)
  currentDifficulty : String
  preferredDifficulty : Option String := none
  customQuestions : Option (List ScheduledCustomQuestion) := none
  focusAreas : Option String := none
  durationMinutes : Option ℚ := none
  approximateTokens : JNum
  deriving Repr, DecidableEq

structure QuestionTemplate where
  id : String
  role : String
  phase : String
  difficulty : String
  text : String
  competencyIds : List String
  followUpPrompt : Option String := none
  deriving Repr, DecidableEq

structure QuestionTemplateRow where
  id : String
  role : String
  phase : String
  difficulty : String
  text : String
  competency_ids : Option (List String) := none
  follow_up_prompt : Option String := none
  is_coding_question : Option Bool := none
  starter_code : Option String := none
  language : Option String := none
  sort_order : Option ℚ := none
  deriving Repr, DecidableEq

/-- Lookup in a JS record modelled as an association list (first key wins,
matching JS objects which cannot hold duplicate keys). -/
def recGet (r : List (String × Bool)) (k : String) : Option Bool :=
  (r.find? (fun p => p.1 == k)).map (·.2)

/-- JS truthiness of `state.topicCoverage[id]`. -/
def coveredIn (r : List (String × Bool)) (k : String) : Bool :=
  (recGet r k).getD false

/-- JS object spread `{...old, ...upd}`: the keys of `old` in order with
values overridden by `upd` where present, then the new keys of `upd`. -/
def recMerge (old upd : List (String × Bool)) : List (String × Bool) :=
  old.map (fun p =>
    match recGet upd p.1 with
    | some v => (p.1, v)
    | none => p) ++ upd.filter (fun p => (recGet old p.1).isNone)

/-! ## The session key-value store (src/redis/client.ts, in-memory variant)

`SESSION_TTL_SECONDS` and the memory store (`get` deletes an expired entry,
`setex` writes value and expiry, `expire` refreshes the expiry) are
translated from the repository's Redis client.  A JS `Map` cannot hold
duplicate keys, so it is modelled as an association list on which `set`
replaces in place. -/

/-- TTL for session keys (4 hours), from `redis/client.ts`. -/
def SESSION_TTL_SECONDS : Nat := 4 * 60 * 60

/-- `sessionKey` from `redis/client.ts` (`KEY_PREFIX = 'ai_interview:'`). -/
def sessionKey (interviewId : String) : String :=
  "ai_interview:session:" ++ interviewId

/-- The memory store maps keys to (value, expiry timestamp in ms); the JS
`Map` is value-agnostic, so the model is generic in the value type (`String`
at the wire level, parsed states at the session level). -/
abbrev KVStore (α : Type) := List (String × α × Nat)

def kvFind {α} (s : KVStore α) (k : String) : Option (String × α × Nat) :=
  s.find? (fun e => e.1 == k)

/-- Memory-store `get`: expired entries are deleted and read as absent. -/
def kvGet {α} (now : Nat) (s : KVStore α) (k : String) : Option α × KVStore α :=
  match kvFind s k with
  | none => (none, s)
  | some e =>
    if now > e.2.2 then (none, s.filter (fun x => !(x.1 == k)))
    else (some e.2.1, s)

/-- Memory-store `setex`: write value with expiry `now + seconds*1000`
(`Map.set` replaces in place, or appends a new key). -/
def kvSetex {α} (now : Nat) (s : KVStore α) (k : String) (seconds : Nat)
    (v : α) : KVStore α :=
  if s.any (fun e => e.1 == k) then
    s.map (fun e => if e.1 == k then (k, v, now + seconds * 1000) else e)
  else s ++ [(k, v, now + seconds * 1000)]

/-- Memory-store `expire`: refresh the expiry of an existing entry. -/
def kvExpire {α} (now : Nat) (s : KVStore α) (k : String) (seconds : Nat) :
    KVStore α :=
  s.map (fun e => if e.1 == k then (e.1, e.2.1, now + seconds * 1000) else e)

/-- The value a `get` at time `now` would observe, as a pure observation
(used to state frame conditions about stored content). -/
def kvLive {α} (now : Nat) (s : KVStore α) (k : String) : Option α :=
  match kvFind s k with
  | none => none
  | some e => if now > e.2.2 then none else some e.2.1

/-- Raw string-level store. -/
abbrev RStore := KVStore String

def rfind (s : RStore) (k : String) : Option (String × String × Nat) :=
  kvFind s k

def rget (now : Nat) (s : RStore) (k : String) : Option String × RStore :=
  kvGet now s k

def rsetex (now : Nat) (s : RStore) (k : String) (seconds : Nat) (v : String) :
    RStore :=
  kvSetex now s k seconds v

def rexpire (now : Nat) (s : RStore) (k : String) (seconds : Nat) : RStore :=
  kvExpire now s k seconds

/-- `InterviewSessionService.getState` at the raw string level.  `parse` is
the outcome of `JSON.parse` on a stored string (`none` = the parse throws,
caught by the service); the JS falsy check `if (!raw)` also rejects the
empty string. -/
def getStateRaw (parse : String → Option InterviewState) (now : Nat)
    (s : RStore) (interviewId : String) : Option InterviewState × RStore :=
  let r := rget now s (sessionKey interviewId)
  match r.1 with
  | none => (none, r.2)
  | some raw =>
    if raw = "" then (none, r.2)
    else
      match parse raw with
      | some st => (some st, rexpire now r.2 (sessionKey interviewId) SESSION_TTL_SECONDS)
      | none => (none, r.2)

/-- `InterviewSessionService.setState` at the raw string level; `encode` is
`JSON.stringify`. -/
def setStateRaw (encode : InterviewState → String) (now : Nat) (s : RStore)
    (interviewId : String) (state : InterviewState) : RStore :=
  rsetex now s (sessionKey interviewId) SESSION_TTL_SECONDS (encode state)

/-! ## The session store at the parsed-state level

For the session operations (`getState` / `setState` / `appendTurn` / `end`),
the JSON round-trip through the store is the identity
(`JSON.parse(JSON.stringify(state))` on these record types), so the store is
modelled as holding parsed states directly. -/

abbrev SessionStore := KVStore InterviewState

def sfind (s : SessionStore) (k : String) : Option (String × InterviewState × Nat) :=
  kvFind s k

/-- Memory-store `get` at the state level. -/
def storeGet (now : Nat) (s : SessionStore) (k : String) :
    Option InterviewState × SessionStore :=
  kvGet now s k

/-- Memory-store `setex` at the state level. -/
def storeSetex (now : Nat) (s : SessionStore) (k : String) (seconds : Nat)
    (v : InterviewState) : SessionStore :=
  kvSetex now s k seconds v

/-- Memory-store `expire` at the state level. -/
def storeExpire (now : Nat) (s : SessionStore) (k : String) (seconds : Nat) :
    SessionStore :=
  kvExpire now s k seconds

/-- The session value a `get` at time `now` would observe, as a pure
observation (used to state frame conditions about stored content). -/
def liveGet (now : Nat) (s : SessionStore) (k : String) : Option InterviewState :=
  kvLive now s k

/-- `InterviewSessionService.getState`: load, refresh TTL on success. -/
def getState (now : Nat) (s : SessionStore) (interviewId : String) :
    Option InterviewState × SessionStore :=
  let r := storeGet now s (sessionKey interviewId)
  match r.1 with
  | none => (none, r.2)
  | some st => (some st, storeExpire now r.2 (sessionKey interviewId) SESSION_TTL_SECONDS)

/-- `InterviewSessionService.setState`: write with the session TTL. -/
def setState (now : Nat) (s : SessionStore) (interviewId : String)
    (state : InterviewState) : SessionStore :=
  storeSetex now s (sessionKey interviewId) SESSION_TTL_SECONDS state

/-- The optional `updates` argument of `appendTurn`
(`Partial<Pick<InterviewState, 'phase' | 'topicCoverage' | 'currentDifficulty'
| 'approximateTokens'>>`). -/
structure TurnUpdates where
  phase : Option String := none
  topicCoverage : Option (List (String × Bool)) := none
  currentDifficulty : Option String := none
  approximateTokens : Option JNum := none
  deriving Repr, DecidableEq

/-- `InterviewSessionService.appendTurn`: load, push the turn, apply the
named updates (topicCoverage merges by spread), store. -/
def appendTurn (now : Nat) (s : SessionStore) (interviewId : String)
    (turn : Turn) (updates : TurnUpdates) :
    Option InterviewState × SessionStore :=
  let r := getState now s interviewId
  match r.1 with
  | none => (none, r.2)
  | some state =>
    let state := { state with turns := state.turns ++ [turn] }
    let state :=
      match updates.phase with
      | some p => { state with phase := p }
      | none => state
    let state :=
      match updates.topicCoverage with
      | some tc => { state with topicCoverage := recMerge state.topicCoverage tc }
      | none => state
    let state :=
      match updates.currentDifficulty with
      | some d => { state with currentDifficulty := d }
      | none => state
    let state :=
      match updates.approximateTokens with
      | some t => { state with approximateTokens := t }
      | none => state
    (some state, setState now r.2 interviewId state)

/-- `InterviewSessionService.end` (named `endInterview`: `end` is a Lean
keyword).  The PostgreSQL writes (interview row, report upsert) are external;
on the session store the call only performs the `getState` TTL refresh — the
session entry is retained. -/
def endInterview (now : Nat) (s : SessionStore) (interviewId : String)
    (_report : Option Unit) : Bool × SessionStore :=
  let r := getState now s interviewId
  (true, r.2)

/-- `DEFAULT_PHASE_ORDER` from `InterviewSessionService.ts`. -/
def DEFAULT_PHASE_ORDER : List String :=
  ["intro", "technical", "behavioral", "wrap_up", "coding"]

/-- `InterviewSessionService.getPhaseOrder` (returns a copy of the list). -/
def sessionGetPhaseOrder : List String := DEFAULT_PHASE_ORDER

/-! ## ConversationManager (src/services/interview/ConversationManager.ts) -/

/-- `config.ai.maxContextTokens` (src/config/index.ts). -/
def maxContextTokens : Nat := 12000

/-- `SUMMARIZE_THRESHOLD = Math.floor(MAX_TOKENS * 0.75)`. -/
def SUMMARIZE_THRESHOLD : Nat := maxContextTokens * 3 / 4

/-- `ConversationManager.estimateTokens`: `Math.ceil(text.length / 4)`. -/
def estimateTokens (text : String) : Nat := (text.length + 3) / 4

/-- The summarization stub inserted as `priorSummary`. -/
def summaryStub : String :=
  "Earlier in the interview, the candidate answered several questions. The following is a brief summary: [Summarization would be inserted here by a background job or inline summarizer]."

structure ContextMessage where
  role : String
  content : String
  deriving Repr, DecidableEq

structure ConversationContext where
  messages : List ContextMessage
  priorSummary : Option String := none
  approximateTokens : ℚ
  deriving Repr, DecidableEq

/-- The message built from a turn (`'ai'` maps to `'assistant'`, anything
else to `'user'`). -/
def turnMessage (t : Turn) : ContextMessage :=
  ⟨if t.role == "ai" then "assistant" else "user", t.content⟩

/-- One step of the message-building loop: append the turn as a message and
add its token estimate. -/
def pushTurn (acc : List ContextMessage × ℚ) (t : Turn) :
    List ContextMessage × ℚ :=
  (acc.1 ++ [turnMessage t], acc.2 + (estimateTokens t.content : ℚ))

/-- `ConversationManager.buildContext`. -/
def buildContext (state : InterviewState) : ConversationContext :=
  let turns := state.turns
  let totalTokens : ℚ := jOrZero state.approximateTokens
  if totalTokens > (SUMMARIZE_THRESHOLD : ℚ) ∧ turns.length > 10 then
    let recentTurns := turns.drop (turns.length - 12)
    let acc := recentTurns.foldl pushTurn ([], (estimateTokens summaryStub : ℚ))
    { messages := acc.1, priorSummary := some summaryStub, approximateTokens := acc.2 }
  else
    let acc := turns.foldl pushTurn ([], totalTokens)
    { messages := acc.1, priorSummary := none, approximateTokens := acc.2 }

/-- `ConversationManager.createTurn`; the uuid and ISO timestamp come from
the environment and are passed explicitly. -/
def createTurn (id : String) (timestamp : String) (role : String)
    (content : String) (questionId : Option String)
    (evaluation : Option AnswerEvaluation) (codingStarterCode : Option String)
    (codingLanguage : Option String) (isCodingQuestion : Option Bool) : Turn :=
  { id := id, role := role, content := content, timestamp := timestamp,
    questionId := questionId, evaluation := evaluation,
    codingStarterCode := codingStarterCode, codingLanguage := codingLanguage,
    isCodingQuestion := isCodingQuestion }

/-! ## EvaluationEngine (src/services/interview/InterviewSessionService.ts,
second compilation unit) -/

/-- `MAX_SCORE` in the evaluation engine. -/
def MAX_SCORE : JNum := some 10

structure EvalParsed where
  score : JNum
  maxScore : JNum
  relevance : JNum
  structureScore : JNum
  depth : JNum
  competencyIds : List String
  redFlags : List String
  feedbackSnippet : String
  deriving Repr, DecidableEq

/-- The catch-branch default of `parseEvaluationResponse`. -/
def evalParseFailure (competencyIds : List String) : EvalParsed :=
  { score := some 0, maxScore := MAX_SCORE, relevance := some 0,
    structureScore := some 0, depth := some 0, competencyIds := competencyIds,
    redFlags := ["Could not parse evaluation"],
    feedbackSnippet := "Evaluation unavailable." }

/-- `EvaluationEngine.parseEvaluationResponse` on the outcome of
`JSON.parse` of the (fence-stripped) LLM text; `none` = the text is not
parseable.  A parsed `null` also lands in the catch branch because property
access on `null` throws.  Note that the source's `Number(obj.score) ?? 0`
fallbacks are dead code: `Number` never returns `null`/`undefined`, it
returns NaN, which `??` does not catch. -/
def parseEvaluationResponse (parsed : Option Json)
    (competencyIds : List String) : EvalParsed :=
  match parsed with
  | none => evalParseFailure competencyIds
  | some .jnull => evalParseFailure competencyIds
  | some v =>
    let score := jmin (some 10) (jmax (some 0) (numField v "score"))
    let relevance := jmin (some 10) (jmax (some 0) (numField v "relevance"))
    let structureScore := jmin (some 10) (jmax (some 0) (numField v "structure"))
    let depth := jmin (some 10) (jmax (some 0) (numField v "depth"))
    let redFlags :=
      match getField v "redFlags" with
      | some (.jarr xs) => xs.map jsonCastString
      | _ => []
    let feedbackSnippet :=
      match getField v "feedbackSnippet" with
      | some (.jstr s) => s
      | _ => ""
    let compIds :=
      match getField v "competencyIds" with
      | some (.jarr xs) => xs.map jsonCastString
      | _ => competencyIds
    { score := score, maxScore := MAX_SCORE, relevance := relevance,
      structureScore := structureScore, depth := depth,
      competencyIds := compIds, redFlags := redFlags,
      feedbackSnippet := feedbackSnippet }

/-- `EvaluationEngine.evaluate`: parse the LLM response (given here as its
parse outcome) and attach `normalizedScore = score / MAX_SCORE`. -/
def evaluate (parsed : Option Json) (competencyIds : List String) :
    AnswerEvaluation :=
  let p := parseEvaluationResponse parsed competencyIds
  { score := p.score, maxScore := p.maxScore, relevance := p.relevance,
    structureScore := p.structureScore, depth := p.depth,
    competencyIds := p.competencyIds, redFlags := p.redFlags,
    feedbackSnippet := p.feedbackSnippet,
    normalizedScore := jdiv p.score MAX_SCORE }

/-! ## QuestionStrategyEngine (src/services/interview/QuestionStrategyEngine.ts)

`getQuestionTemplatesForStrategy` queries PostgreSQL; it is modelled as an
oracle `Db` mapping (role, phase) to `some rows` (the query result) or
`none` (the query throws — caught by the engine). -/

abbrev Db := String → String → Option (List QuestionTemplateRow)

/-- `DEMO_QUESTIONS`: fallback when no questions are in the DB. -/
def DEMO_QUESTIONS : List QuestionTemplate :=
  [ { id := "intro-1", role := "technical", phase := "intro", difficulty := "easy",
      text := "Hello! Thank you for joining today. Can you tell me a bit about your background and what drew you to this role?",
      competencyIds := ["communication"] },
    { id := "tech-1", role := "technical", phase := "technical", difficulty := "medium",
      text := "Describe a technical challenge you recently solved. What was your approach and outcome?",
      competencyIds := ["problem_solving", "technical_depth"] },
    { id := "tech-2", role := "technical", phase := "technical", difficulty := "medium",
      text := "How do you balance shipping quickly with maintaining code quality?",
      competencyIds := ["technical_depth", "judgment"] },
    { id := "tech-follow", role := "technical", phase := "technical", difficulty := "medium",
      text := "Could you go into more detail about the trade-offs you considered?",
      competencyIds := ["technical_depth"],
      followUpPrompt := some "When answer is vague on trade-offs" },
    { id := "beh-1", role := "technical", phase := "behavioral", difficulty := "medium",
      text := "Tell me about a time you had to collaborate with a difficult stakeholder. How did you handle it?",
      competencyIds := ["collaboration", "communication"] },
    { id := "wrap-1", role := "technical", phase := "wrap_up", difficulty := "easy",
      text := "Do you have any questions for us about the role or the team?",
      competencyIds := ["engagement"] } ]

/-- `rowToTemplate`. -/
def rowToTemplate (row : QuestionTemplateRow) : QuestionTemplate :=
  { id := row.id, role := row.role, phase := row.phase,
    difficulty := row.difficulty, text := row.text,
    competencyIds := row.competency_ids.getD [],
    followUpPrompt := row.follow_up_prompt }

structure NextQuestionResult where
  questionText : String
  questionId : String
  phase : String
  difficulty : String
  competencyIds : List String
  isFollowUp : Bool
  isCodingQuestion : Option Bool := none
  starterCode : Option String := none
  language : Option String := none
  deriving Repr, DecidableEq

structure NextQuestionInput where
  state : InterviewState
  requestFollowUp : Bool := false
  forceNextPhase : Bool := false
  deriving Repr, DecidableEq

/-- `QuestionStrategyEngine.getPhaseOrder` (the engine's private copy). -/
def strategyPhaseOrder : List String :=
  ["intro", "technical", "behavioral", "wrap_up", "coding"]

/-- `QuestionStrategyEngine.nextPhase`: the successor in the phase order,
`null` past the end or for an unknown phase (`indexOf` returns -1). -/
def nextPhase (current : String) : Option String :=
  match strategyPhaseOrder.indexOf? current with
  | some i => if i < strategyPhaseOrder.length - 1 then strategyPhaseOrder.get? (i + 1) else none
  | none => none

/-- `fallbackQuestionFor`.  `textByPhase[phase]` on an unknown phase string is
`undefined` in JS; it is rendered as the empty string here (no claim inspects
that text). -/
def fallbackQuestionFor (role : String) (phase : String) : NextQuestionResult :=
  let roleLabel := role.replace "_" " "
  let textByPhase : List (String × String) :=
    [ ("intro", "Tell me a bit about your background and what interests you about this " ++ roleLabel ++ " role."),
      ("technical", "Walk me through a recent challenge you faced and how you solved it."),
      ("behavioral", "Tell me about a time you handled a difficult situation with a teammate or stakeholder."),
      ("wrap_up", "Do you have any questions for me about the role or team?"),
      ("coding", "Please solve the following coding problem.") ]
  { questionText := ((textByPhase.find? (fun p => p.1 == phase)).map (·.2)).getD "",
    questionId := "fallback-" ++ role ++ "-" ++ phase,
    phase := phase,
    difficulty := if phase == "intro" || phase == "wrap_up" then "easy" else "medium",
    competencyIds := ["communication"],
    isFollowUp := false,
    isCodingQuestion := some false,
    starterCode := none,
    language := none }

/-- `getQuestionsForRoleAndPhase`: DB rows when the query succeeds and is
non-empty, else the demo bank filtered by role and phase. -/
def getQuestionsForRoleAndPhase (db : Db) (role : String) (phase : String) :
    List QuestionTemplate :=
  match db role phase with
  | some rows =>
    if rows.length > 0 then rows.map rowToTemplate
    else DEMO_QUESTIONS.filter (fun q => q.role == role && q.phase == phase)
  | none => DEMO_QUESTIONS.filter (fun q => q.role == role && q.phase == phase)

/-- The trailing row lookup
`getQuestionTemplatesForStrategy(...).then(rows => rows.find(...)).catch(() => null)`. -/
def dbFindRow (db : Db) (role : String) (phase : String) (id : String) :
    Option QuestionTemplateRow :=
  match db role phase with
  | some rows => rows.find? (fun r => r.id == id)
  | none => none

/-- The recruiter custom-question branch (taken when the effective phase is
`'technical'` and an uncovered non-coding custom question remains). -/
def customQuestionBranch (state : InterviewState) (phase : String) :
    Option NextQuestionResult :=
  if phase == "technical" && state.customQuestions.isSome
      && (state.customQuestions.getD []).length > 0 then
    let verbalOnly :=
      ((((state.customQuestions.getD []).filter
          (fun q => !(q.isCodingQuestion.getD false))).enum).map
        (fun p => ("custom-" ++ toString p.1, p.2))).filter
        (fun p => !(coveredIn state.topicCoverage p.1))
    if verbalOnly.length > 0 then
      let byDifficulty := verbalOnly.filter (fun p => p.2.difficulty == state.currentDifficulty)
      match (if byDifficulty.length > 0 then byDifficulty else verbalOnly).head? with
      | some custom =>
        some { questionText := custom.2.text, questionId := custom.1,
               phase := phase, difficulty := custom.2.difficulty,
               competencyIds := ["communication", "technical_depth"],
               isFollowUp := false, isCodingQuestion := some false,
               starterCode := none, language := none }
      | none => none
    else none
  else none

/-- `defaultCoding`: the built-in coding problems. -/
def defaultCoding : List ScheduledCustomQuestion :=
  [ { text := "Implement a function that reverses a string. Handle empty and single-character strings.",
      difficulty := "easy", isCodingQuestion := some true, language := some "javascript",
      starterCode := some "function reverseString(str) \x7b\n  // your code here\n  return str;\n\x7d" },
    { text := "Write a function that checks if a string is a palindrome. Ignore case and non-alphanumeric characters.",
      difficulty := "medium", isCodingQuestion := some true, language := some "javascript",
      starterCode := some "function isPalindrome(str) \x7b\n  // your code here\n  return false;\n\x7d" },
    { text := "Given an array of numbers, return the two indices whose values sum to a target. Assume exactly one solution exists.",
      difficulty := "medium", isCodingQuestion := some true, language := some "javascript",
      starterCode := some "function twoSum(nums, target) \x7b\n  // your code here\n  return [];\n\x7d" } ]

/-- `CODE_FOLLOW_UPS`. -/
def CODE_FOLLOW_UPS : List String :=
  [ "What is the time complexity of your solution? Can you explain your approach?",
    "How would you test this solution? What edge cases did you consider?",
    "How would you improve or refactor this code for production?" ]

/-- `slotOrder` of the coding phase. -/
def slotOrder : List String :=
  ["coding-0", "coding-0-follow", "coding-1", "coding-1-follow", "coding-2", "coding-2-follow"]

/-- `parseInt(slot.replace('coding-', '').replace('-follow', ''), 10)` — the
slots are drawn from `slotOrder`, on which the parse always succeeds. -/
def slotProblemIndex (slot : String) : Nat :=
  (((slot.replace "coding-" "").replace "-follow" "").toNat?).getD 0

/-- The `for (const slot of slotOrder)` loop of the coding branch. -/
def codingLoop (state : InterviewState) (pool : List ScheduledCustomQuestion) :
    List String → Option NextQuestionResult
  | [] => none
  | slot :: rest =>
    if coveredIn state.topicCoverage slot then codingLoop state pool rest
    else
      let problemIndex := slotProblemIndex slot
      if slot.endsWith "-follow" then
        some { questionText := CODE_FOLLOW_UPS.getD problemIndex (CODE_FOLLOW_UPS.getD 0 ""),
               questionId := slot, phase := "coding",
               difficulty := state.currentDifficulty,
               competencyIds := ["technical_depth", "problem_solving"],
               isFollowUp := true, isCodingQuestion := some false,
               starterCode := none, language := none }
      else
        match pool.get? problemIndex with
        | none => codingLoop state pool rest
        | some problem =>
          let isFirstCoding := problemIndex == 0 && !(coveredIn state.topicCoverage "coding-0")
          let questionText :=
            if isFirstCoding then
              "Great, we\x27re done with the verbal part. Please switch to the **Code** tab—you\x27ll have 3 problems to solve. Here\x27s the first one:\n\n" ++ problem.text
            else problem.text
          some { questionText := questionText, questionId := slot,
                 phase := "coding", difficulty := problem.difficulty,
                 competencyIds := ["technical_depth", "problem_solving"],
                 isFollowUp := false, isCodingQuestion := some true,
                 starterCode := problem.starterCode, language := problem.language }

/-- The coding-phase branch (technical role only). -/
def codingBranch (state : InterviewState) (phase : String) :
    Option NextQuestionResult :=
  if phase == "coding" && state.role == "technical" then
    let codingQuestions := (state.customQuestions.getD []).filter
      (fun q => q.isCodingQuestion.getD false)
    let pool := if codingQuestions.length ≥ 3 then codingQuestions.take 3 else defaultCoding
    codingLoop state pool slotOrder
  else none

/-- The follow-up branch: when the last answer warrants a follow-up and the
previously asked template carries a (truthy) `followUpPrompt`. -/
def followUpBranch (requestFollowUp : Bool) (lastQuestionId : Option String)
    (allForFollowUp : List QuestionTemplate) (phase : String) :
    Option NextQuestionResult :=
  if requestFollowUp then
    match lastQuestionId with
    | some lqid =>
      match allForFollowUp.find?
          (fun q => q.id == lqid || lqid == q.id ++ "-follow") with
      | some lastQ =>
        if (lastQ.followUpPrompt.getD "") ≠ "" then
          let base := if lastQ.id.endsWith "-follow" then lastQ.id.dropRight 7 else lastQ.id
          let base := if base == "" then lastQ.id else base
          some { questionText := lastQ.text, questionId := base ++ "-follow",
                 phase := phase, difficulty := lastQ.difficulty,
                 competencyIds := lastQ.competencyIds, isFollowUp := true,
                 isCodingQuestion := none, starterCode := none, language := none }
        else none
      | none => none
    | none => none
  else none

/-- `lastTurn?.role === 'ai' ? lastTurn.questionId : null` on the last stored
turn. -/
def lastQuestionIdOf (state : InterviewState) : Option String :=
  match state.turns.getLast? with
  | some t => if t.role == "ai" then t.questionId else none
  | none => none

/-- `QuestionStrategyEngine.getNextQuestion`.  The `fuel` bounds the
recursion of the source's (dead) `!choice` branch, which advances the phase
along the five-element order; the top-level entry point supplies fuel 6,
which the dead branch can never exhaust. -/
def getNextQuestionGo (db : Db) : Nat → NextQuestionInput → Option NextQuestionResult
  | 0, _ => none
  | fuel + 1, input =>
    let state := input.state
    let lastQuestionId : Option String := lastQuestionIdOf state
    if state.phase == "coding" && state.role != "technical" then none
    else
      let phase :=
        if input.forceNextPhase then (nextPhase state.phase).getD state.phase
        else state.phase
      match customQuestionBranch state phase with
      | some r => some r
      | none =>
      match codingBranch state phase with
      | some r => some r
      | none =>
        let candidates := getQuestionsForRoleAndPhase db state.role phase
        if candidates.length == 0 then some (fallbackQuestionFor state.role phase)
        else
          let allForFollowUp :=
            candidates ++ DEMO_QUESTIONS.filter (fun q => q.role == state.role)
          match followUpBranch input.requestFollowUp lastQuestionId allForFollowUp phase with
          | some r => some r
          | none =>
            let uncovered := candidates.filter
              (fun q => !(coveredIn state.topicCoverage q.id))
            let pool := if uncovered.length > 0 then uncovered else candidates
            let byDifficulty := pool.filter (fun q => q.difficulty == state.currentDifficulty)
            match (if byDifficulty.length > 0 then byDifficulty else pool).head? with
            | some choice =>
              let row := dbFindRow db state.role phase choice.id
              some { questionText := choice.text, questionId := choice.id,
                     phase := phase, difficulty := choice.difficulty,
                     competencyIds := choice.competencyIds, isFollowUp := false,
                     isCodingQuestion := some ((row.bind (·.is_coding_question)).getD false),
                     starterCode := row.bind (·.starter_code),
                     language := row.bind (·.language) }
            | none =>
              match nextPhase phase with
              | some nextPh =>
                getNextQuestionGo db fuel
                  { input with state := { state with phase := nextPh },
                               forceNextPhase := false }
              | none => some (fallbackQuestionFor state.role phase)

/-- `getNextQuestion` entry point. -/
def getNextQuestion (db : Db) (input : NextQuestionInput) :
    Option NextQuestionResult :=
  getNextQuestionGo db 6 input

/-- `QuestionStrategyEngine.getCompetencyIdsForQuestionId`. -/
def getCompetencyIdsForQuestionId (questionId : String) : List String :=
  if questionId.startsWith "coding-" then ["technical_depth", "problem_solving"]
  else
    let baseId := if questionId.endsWith "-follow" then questionId.dropRight 7 else questionId
    match DEMO_QUESTIONS.find? (fun x => x.id == baseId) with
    | some q => q.competencyIds
    | none => ["communication"]

/-! ## ScoringReportService (src/services/... , unnamed part_005) -/

/-- `MAX_SCORE_PER_ANSWER`. -/
def MAX_SCORE_PER_ANSWER : ℚ := 10

structure ReportCompetency where
  competencyId : String
  name : String
  score : JNum
  maxScore : JNum
  evidence : List String
  deriving Repr, DecidableEq

structure QAEntry where
  question : String
  answer : String
  score : JNum
  deriving Repr, DecidableEq

structure InterviewReport where
  interviewId : String
  candidateId : String
  role : String
  startedAt : String
  endedAt : String
  overallScore : JNum
  maxScore : JNum
  recommendation : String
  summary : String
  competencies : List ReportCompetency
  redFlags : List String
  strengths : List String
  improvements : List String
  questionAnswerSummary : List QAEntry
  deriving Repr, DecidableEq

/-- The evaluations of the candidate turns that carry one
(`turns.filter(t => t.role === 'candidate' && t.evaluation != null)`). -/
def candidateEvaluations (turns : List Turn) : List AnswerEvaluation :=
  (turns.filter (fun t => t.role == "candidate" && t.evaluation.isSome)).filterMap
    (·.evaluation)

/-- JS `[...new Set(xs)]`: deduplicate keeping the first occurrence. -/
def jsSetDedup (xs : List String) : List String :=
  (xs.foldl (fun acc x => if acc.contains x then acc else acc ++ [x]) [])

/-- Per-competency accumulator of `aggregate`. -/
structure CompAcc where
  sum : JNum
  count : Nat
  evidence : List String
  deriving Repr, DecidableEq

/-- Upsert into the `competencyScores` record (insertion order preserved,
matching JS object key order). -/
def compUpsert (scores : List (String × CompAcc)) (cid : String)
    (avg : JNum) (ev : Option String) : List (String × CompAcc) :=
  if scores.any (fun p => p.1 == cid) then
    scores.map (fun p =>
      if p.1 == cid then
        (p.1, { sum := jadd p.2.sum avg, count := p.2.count + 1,
                evidence := p.2.evidence ++ ev.toList })
      else p)
  else
    scores ++ [(cid, { sum := jadd (some 0) avg, count := 1,
                       evidence := ([] : List String) ++ ev.toList })]

/-- The `evaluations.forEach((e, i) => ...)` body of `aggregate`, folded over
the indexed evaluations. -/
def aggregateStep (candidateTurnCount : Nat)
    (acc : List (String × CompAcc) × List String × List String × List String)
    (ie : Nat × AnswerEvaluation) :
    List (String × CompAcc) × List String × List String × List String :=
  let (scores, allRedFlags, strengths, improvements) := acc
  let e := ie.2
  let avg := jdiv (jadd (jadd e.relevance e.structureScore) e.depth) (some 3)
  let ev : Option String :=
    if e.feedbackSnippet != "" && ie.1 < candidateTurnCount then
      some e.feedbackSnippet
    else none
  let scores := e.competencyIds.foldl (fun s cid => compUpsert s cid avg ev) scores
  let allRedFlags := allRedFlags ++ e.redFlags
  let strengths :=
    if jge e.normalizedScore (some (7/10)) then
      strengths ++ [if e.feedbackSnippet != "" then e.feedbackSnippet else "Strong answer"]
    else strengths
  let improvements :=
    if jlt e.normalizedScore (some (1/2)) then
      improvements ++ [if e.feedbackSnippet != "" then e.feedbackSnippet else "Needs improvement"]
    else improvements
  (scores, allRedFlags, strengths, improvements)

structure AggregateResult where
  overallScore : JNum
  maxScore : JNum
  competencies : List ReportCompetency
  redFlags : List String
  strengths : List String
  improvements : List String
  deriving Repr, DecidableEq

/-- `ScoringReportService.aggregate`. -/
def aggregate (evaluations : List AnswerEvaluation) (turns : List Turn) :
    AggregateResult :=
  let n := evaluations.length
  let maxScore : JNum := some (n * MAX_SCORE_PER_ANSWER)
  let overallScore := evaluations.foldl (fun sum e => jadd sum e.score) (some 0)
  let candidateTurns := turns.filter (fun t => t.role == "candidate")
  let folded := evaluations.enum.foldl (aggregateStep candidateTurns.length)
    ([], [], [], [])
  let (scores, allRedFlags, strengths, improvements) := folded
  let competencies := scores.map (fun p =>
    { competencyId := p.1, name := p.1.replace "_" " ",
      score := p.2.sum, maxScore := some (p.2.count * MAX_SCORE_PER_ANSWER),
      evidence := p.2.evidence.take 3 })
  { overallScore := overallScore, maxScore := maxScore,
    competencies := competencies, redFlags := jsSetDedup allRedFlags,
    strengths := strengths.take 5, improvements := improvements.take 5 }

/-- `ScoringReportService.recommend`. -/
def recommend (overallScore : JNum) (maxScore : JNum) (redFlags : List String) :
    String :=
  let pct := if jgt maxScore (some 0) then jdiv overallScore maxScore else some 0
  if redFlags.length > 2 then "no_hire"
  else if jge pct (some (8/10)) then "strong_hire"
  else if jge pct (some (6/10)) then "hire"
  else if jge pct (some (4/10)) then "borderline"
  else "no_hire"

/-- `ScoringReportService.writeSummary` (string output; no claim inspects
it). -/
def writeSummary (numAnswers : Nat) (overallScore : JNum) (maxScore : JNum)
    (recommendation : String) : String :=
  let pct :=
    if jgt maxScore (some 0) then
      jnumToString (jround (jmul (jdiv overallScore maxScore) (some 100)))
    else "0"
  "The candidate answered " ++ toString numAnswers
    ++ " questions with an overall score of " ++ jnumToString overallScore
    ++ "/" ++ jnumToString maxScore ++ " (" ++ pct ++ "%). Recommendation: "
    ++ recommendation ++ "."

/-- The single pass pairing each candidate answer with the question asked
just before it (`lastQuestion` starts as the placeholder `'Question'`). -/
def qaLoop (lastQuestion : String) : List Turn → List QAEntry
  | [] => []
  | t :: ts =>
    let lq := if t.role == "ai" then t.content else lastQuestion
    if t.role == "candidate" then
      { question := lq, answer := t.content,
        score := jmul ((t.evaluation.map (·.normalizedScore)).getD (some 0)) (some 10) }
        :: qaLoop lq ts
    else qaLoop lq ts

/-- `ScoringReportService.buildReport`.  The fresh `new Date().toISOString()`
used when `endedAt` is absent is passed as `nowIso`. -/
def buildReport (nowIso : String) (state : InterviewState) : InterviewReport :=
  let endedAt := state.endedAt.getD nowIso
  let evaluations := candidateEvaluations state.turns
  let agg := aggregate evaluations state.turns
  let recommendation := recommend agg.overallScore agg.maxScore agg.redFlags
  let questionAnswerSummary := qaLoop "Question" state.turns
  let summary := writeSummary evaluations.length agg.overallScore agg.maxScore recommendation
  { interviewId := state.interviewId, candidateId := state.candidateId,
    role := state.role, startedAt := state.startedAt, endedAt := endedAt,
    overallScore := agg.overallScore, maxScore := agg.maxScore,
    recommendation := recommendation, summary := summary,
    competencies := agg.competencies, redFlags := agg.redFlags,
    strengths := agg.strengths, improvements := agg.improvements,
    questionAnswerSummary := questionAnswerSummary }

/-! ## AIInterviewerOrchestrator.submitAnswer
(src/services/interview/AIInterviewerOrchestrator.ts)

External effects are supplied through `SubmitAnswerEnv`: the DB oracle, the
parse outcome of the evaluation LLM response, the reply text produced by
`getNextReplyInternal` (an LLM round-trip plus post-processing that no claim
inspects), the uuids/timestamps of the created turns, and the ISO timestamp
used for `endedAt`. -/

structure SubmitAnswerEnv where
  db : Db
  /-- parse outcome of the evaluation LLM response (`none` = not parseable) -/
  evalParsed : Option Json
  /-- reply produced by `getNextReplyInternal` for the next question -/
  aiReply : String
  candTurnId : String
  candTs : String
  aiTurnId : String
  aiTs : String
  nowIso : String

structure SubmitAnswerResult where
  success : Bool
  state : Option InterviewState
  nextReply : Option String := none
  evaluation : Option (JNum × JNum) := none
  report : Option InterviewReport := none
  failureReason : Option String := none
  deriving DecidableEq

/-- The closing reply sent when the interview ends. -/
def closingReply : String :=
  "Thank you for your time today. That concludes our interview. You will receive feedback shortly."

/-- `AIInterviewerOrchestrator.submitAnswer`. -/
def submitAnswer (env : SubmitAnswerEnv) (now : Nat) (store : SessionStore)
    (interviewId : String) (answerText : String) :
    SubmitAnswerResult × SessionStore :=
  let r0 := getState now store interviewId
  match r0.1 with
  | none =>
    ({ success := false, state := none, failureReason := some "session_not_found" }, r0.2)
  | some state =>
    match state.turns.getLast? with
    | none =>
      ({ success := false, state := none, failureReason := some "no_pending_question" }, r0.2)
    | some lastTurn =>
      if lastTurn.role != "ai" then
        ({ success := false, state := none, failureReason := some "no_pending_question" }, r0.2)
      else
        let lastAiTurn := state.turns.reverse.find? (fun t => t.role == "ai")
        let lastQuestionId := lastAiTurn.bind (·.questionId)
        let competencyIds :=
          match lastQuestionId with
          | some qid => getCompetencyIdsForQuestionId qid
          | none => ["communication"]
        let competencyIds :=
          if competencyIds.length > 0 then competencyIds else ["communication"]
        let evaluation := evaluate env.evalParsed competencyIds
        let candidateTurn := createTurn env.candTurnId env.candTs "candidate"
          answerText none (some evaluation) none none none
        let r1 := appendTurn now r0.2 interviewId candidateTurn
          { topicCoverage := lastQuestionId.map (fun qid => [(qid, true)]) }
        let r2 := getState now r1.2 interviewId
        match r2.1 with
        | none =>
          ({ success := true, state := none,
             evaluation := some (evaluation.score, evaluation.maxScore) }, r2.2)
        | some updatedState =>
          let requestFollowUp :=
            jlt evaluation.normalizedScore (some (1/2)) || answerText.length < 50
          let next := getNextQuestion env.db
            { state := updatedState, requestFollowUp := requestFollowUp }
          match next with
          | none =>
            let report := buildReport env.nowIso
              { updatedState with endedAt := some env.nowIso }
            let r3 := endInterview now r2.2 interviewId (some ())
            ({ success := true, state := some updatedState,
               nextReply := some closingReply,
               evaluation := some (evaluation.score, evaluation.maxScore),
               report := some report }, r3.2)
          | some nextQ =>
            let aiTurn := createTurn env.aiTurnId env.aiTs "ai" env.aiReply
              (some nextQ.questionId) none nextQ.starterCode nextQ.language
              (some (nextQ.isCodingQuestion.getD false))
            let r3 := appendTurn now r2.2 interviewId aiTurn
              { phase := some nextQ.phase, currentDifficulty := some nextQ.difficulty }
            let r4 := getState now r3.2 interviewId
            ({ success := true,
               state := match r4.1 with | some fs => some fs | none => some updatedState,
               nextReply := some env.aiReply,
               evaluation := some (evaluation.score, evaluation.maxScore) }, r4.2)

/-! ## Association-list lemmas for the memory store -/

theorem kvFind_filter_self {α} (s : KVStore α) (k : String) :
    kvFind (s.filter (fun x => !(x.1 == k))) k = none := by
  unfold kvFind
  rw [List.find?_eq_none]
  intro x hx
  have hkeep := List.of_mem_filter hx
  simp only [Bool.not_eq_true'] at hkeep
  simp [hkeep]

theorem kvFind_filter_ne {α} {k k' : String} (h : k' ≠ k) (s : KVStore α) :
    kvFind (s.filter (fun x => !(x.1 == k))) k' = kvFind s k' := by
  unfold kvFind
  induction s with
  | nil => rfl
  | cons e s ih =>
    simp only [List.filter_cons]
    cases he : (e.1 == k) with
    | true =>
      have hek : e.1 = k := by simpa using he
      have he2 : (e.1 == k') = false := by
        rw [hek]; exact beq_false_of_ne (Ne.symm h)
      simp only [he, Bool.not_true, Bool.false_eq_true, if_false,
        List.find?_cons, he2]
      exact ih
    | false =>
      simp only [he, Bool.not_false, if_true, List.find?_cons]
      cases he2 : (e.1 == k') with
      | true => rfl
      | false => exact ih

theorem kvFind_map_set {α} (s : KVStore α) (k : String) (v : α) (exp : Nat) :
    List.find? (fun e => e.1 == k)
        (s.map (fun e => if e.1 == k then (k, v, exp) else e))
      = (List.find? (fun e => e.1 == k) s).map (fun _ => (k, v, exp)) := by
  induction s with
  | nil => rfl
  | cons e s ih =>
    simp only [List.map_cons, List.find?_cons]
    cases he : (e.1 == k) with
    | true => simp [he]
    | false =>
      simp only [he, Bool.false_eq_true, if_false]
      exact ih

theorem kvFind_map_set_ne {α} {k k' : String} (h : k' ≠ k) (s : KVStore α)
    (v : α) (exp : Nat) :
    List.find? (fun e => e.1 == k')
        (s.map (fun e => if e.1 == k then (k, v, exp) else e))
      = List.find? (fun e => e.1 == k') s := by
  induction s with
  | nil => rfl
  | cons e s ih =>
    simp only [List.map_cons, List.find?_cons]
    cases he : (e.1 == k) with
    | true =>
      have hek : e.1 = k := by simpa using he
      have he2 : (e.1 == k') = false := by
        rw [hek]; exact beq_false_of_ne (Ne.symm h)
      have hk2 : ((k, v, exp).1 == k') = false := beq_false_of_ne (Ne.symm h)
      simp only [he, if_true, hk2, he2]
      exact ih
    | false =>
      simp only [he, Bool.false_eq_true, if_false]
      cases he2 : (e.1 == k') with
      | true => rfl
      | false => exact ih

theorem kvFind_expire_self {α} (now secs : Nat) (s : KVStore α) (k : String) :
    kvFind (kvExpire now s k secs) k
      = (kvFind s k).map (fun e => (e.1, e.2.1, now + secs * 1000)) := by
  unfold kvFind kvExpire
  induction s with
  | nil => rfl
  | cons e s ih =>
    simp only [List.map_cons, List.find?_cons]
    cases he : (e.1 == k) with
    | true => simp [he]
    | false =>
      simp only [he, Bool.false_eq_true, if_false]
      exact ih

theorem kvFind_expire_ne {α} {k k' : String} (h : k' ≠ k) (now secs : Nat)
    (s : KVStore α) :
    kvFind (kvExpire now s k secs) k' = kvFind s k' := by
  unfold kvFind kvExpire
  induction s with
  | nil => rfl
  | cons e s ih =>
    simp only [List.map_cons, List.find?_cons]
    cases he : (e.1 == k) with
    | true =>
      have hek : e.1 = k := by simpa using he
      have he2 : (e.1 == k') = false := by
        rw [hek]; exact beq_false_of_ne (Ne.symm h)
      simp only [he, if_true, he2]
      exact ih
    | false =>
      simp only [he, Bool.false_eq_true, if_false]
      cases he2 : (e.1 == k') with
      | true => rfl
      | false => exact ih

theorem kvFind_setex_self {α} (now secs : Nat) (s : KVStore α) (k : String)
    (v : α) :
    kvFind (kvSetex now s k secs v) k = some (k, v, now + secs * 1000) := by
  unfold kvSetex kvFind
  by_cases hany : s.any (fun e => e.1 == k)
  · simp only [hany, if_true]
    rw [kvFind_map_set]
    have hs : (List.find? (fun e => e.1 == k) s).isSome := by
      rw [List.find?_isSome]
      exact List.any_eq_true.mp hany
    rcases Option.isSome_iff_exists.mp hs with ⟨e, he⟩
    simp [he]
  · simp only [Bool.not_eq_true] at hany
    simp only [hany, Bool.false_eq_true, if_false]
    have hnone : List.find? (fun e => e.1 == k) s = none := by
      rw [List.find?_eq_none]
      intro x hx hxk
      have : s.any (fun e => e.1 == k) = true := List.any_eq_true.mpr ⟨x, hx, hxk⟩
      rw [this] at hany
      exact Bool.true_eq_false.mp hany
    rw [List.find?_append, hnone]
    simp [List.find?_cons]

theorem kvFind_setex_ne {α} {k k' : String} (h : k' ≠ k) (now secs : Nat)
    (s : KVStore α) (v : α) :
    kvFind (kvSetex now s k secs v) k' = kvFind s k' := by
  unfold kvSetex kvFind
  by_cases hany : s.any (fun e => e.1 == k)
  · simp only [hany, if_true]
    exact kvFind_map_set_ne h s v (now + secs * 1000)
  · simp only [Bool.not_eq_true] at hany
    simp only [hany, Bool.false_eq_true, if_false]
    rw [List.find?_append]
    have hone : List.find? (fun e => e.1 == k') [(k, v, now + secs * 1000)] = none := by
      simp only [List.find?_cons, beq_false_of_ne (Ne.symm h)]
      rfl
    rw [hone]
    exact Option.or_none

/-! ## Behaviour of the session operations -/

theorem getState_fst (now : Nat) (s : SessionStore) (id : String) :
    (getState now s id).1 = liveGet now s (sessionKey id) := by
  unfold getState storeGet kvGet liveGet kvLive
  cases hf : kvFind s (sessionKey id) with
  | none => rfl
  | some e =>
    by_cases hexp : now > e.2.2
    · simp [hexp]
    · simp [hexp]

theorem liveGet_getState_snd (now : Nat) (s : SessionStore) (id k' : String) :
    liveGet now (getState now s id).2 k' = liveGet now s k' := by
  unfold getState storeGet kvGet
  cases hf : kvFind s (sessionKey id) with
  | none => rfl
  | some e =>
    by_cases hexp : now > e.2.2
    · simp only [hexp, if_true]
      by_cases hk : k' = sessionKey id
      · subst hk
        unfold liveGet kvLive
        rw [kvFind_filter_self, hf]
        simp [hexp]
      · unfold liveGet kvLive
        rw [kvFind_filter_ne hk]
    · simp only [hexp, if_false]
      by_cases hk : k' = sessionKey id
      · subst hk
        unfold liveGet kvLive storeExpire
        rw [kvFind_expire_self, hf]
        show (if now > now + SESSION_TTL_SECONDS * 1000 then none else some e.2.1)
          = if now > e.2.2 then none else some e.2.1
        rw [if_neg hexp, if_neg (by omega)]
      · unfold liveGet kvLive storeExpire
        rw [kvFind_expire_ne hk]

theorem liveGet_setState_self (now : Nat) (s : SessionStore) (id : String)
    (v : InterviewState) :
    liveGet now (setState now s id v) (sessionKey id) = some v := by
  unfold liveGet kvLive setState storeSetex
  rw [kvFind_setex_self]
  show (if now > now + SESSION_TTL_SECONDS * 1000 then none else some v) = some v
  rw [if_neg (by omega)]

theorem liveGet_setState_ne {k' : String} (now : Nat) (s : SessionStore)
    (id : String) (v : InterviewState) (h : k' ≠ sessionKey id) :
    liveGet now (setState now s id v) k' = liveGet now s k' := by
  unfold liveGet kvLive setState storeSetex
  rw [kvFind_setex_ne h]

theorem getState_fst_setState (now : Nat) (s : SessionStore) (id : String)
    (v : InterviewState) :
    (getState now (setState now s id v) id).1 = some v := by
  rw [getState_fst, liveGet_setState_self]

theorem getState_fst_getState_snd (now : Nat) (s : SessionStore) (id : String) :
    (getState now (getState now s id).2 id).1 = (getState now s id).1 := by
  rw [getState_fst, liveGet_getState_snd, ← getState_fst]


/-! ## recMerge and appendTurn lemmas -/

theorem find?_filter_of_key (l : List (String × Bool)) (g : (String × Bool) → Bool)
    (k : String) (h : ∀ p, (p.1 == k) = true → g p = true) :
    (l.filter g).find? (fun p => p.1 == k) = l.find? (fun p => p.1 == k) := by
  induction l with
  | nil => rfl
  | cons p l ih =>
    simp only [List.filter_cons]
    cases hp : (p.1 == k) with
    | true =>
      rw [h p hp]
      simp only [if_true, List.find?_cons, hp]
    | false =>
      cases hg : g p with
      | true =>
        simp only [if_true, List.find?_cons, hp]
        exact ih
      | false =>
        simp only [Bool.false_eq_true, if_false, List.find?_cons, hp]
        exact ih

theorem find?_map_keypres (l : List (String × Bool))
    (f : (String × Bool) → (String × Bool)) (hf : ∀ p, (f p).1 = p.1)
    (k : String) :
    (l.map f).find? (fun p => p.1 == k) = (l.find? (fun p => p.1 == k)).map f := by
  induction l with
  | nil => rfl
  | cons p l ih =>
    simp only [List.map_cons, List.find?_cons]
    have hkey : ((f p).1 == k) = (p.1 == k) := by rw [hf]
    cases hp : (p.1 == k) with
    | true =>
      rw [hkey, hp]
      rfl
    | false =>
      rw [hkey, hp]
      exact ih

theorem recGet_recMerge (old upd : List (String × Bool)) (k : String) :
    recGet (recMerge old upd) k =
      match recGet upd k with
      | some v => some v
      | none => recGet old k := by
  unfold recMerge
  rw [recGet.eq_def]
  rw [List.find?_append]
  rw [find?_map_keypres _ _ (fun p => by
    cases h : recGet upd p.1 with
    | none => simp [h]
    | some v => simp [h])]
  cases hold : old.find? (fun p => p.1 == k) with
  | some e =>
    have hek : e.1 = k := by
      have := List.find?_some hold
      simpa using this
    simp only [Option.map_some', Option.map_some]
    have hor : ∀ (x : String × Bool) (o : Option (String × Bool)), (some x).or o = some x :=
      fun _ _ => rfl
    rw [hor, Option.map_some']
    rw [hek]
    cases hu : recGet upd k with
    | some v => simp [hu]
    | none =>
      simp only [hu]
      show some e.2 = recGet old k
      simp [recGet, hold]
  | none =>
    simp only [Option.map_none', Option.none_or]
    have hgold : recGet old k = none := by
      simp [recGet, hold]
    rw [find?_filter_of_key _ _ _ (fun p hp => by
      have hpk : p.1 = k := by simpa using hp
      rw [hpk, hgold]
      rfl)]
    cases hu : upd.find? (fun p => p.1 == k) with
    | some v =>
      have : recGet upd k = some v.2 := by simp [recGet, hu]
      simp [this]
    | none =>
      have : recGet upd k = none := by simp [recGet, hu]
      simp [this, hgold]

/-- The state produced by a successful `appendTurn`. -/
def appendedState (st : InterviewState) (turn : Turn) (u : TurnUpdates) :
    InterviewState :=
  { st with
    turns := st.turns ++ [turn]
    phase := u.phase.getD st.phase
    topicCoverage :=
      match u.topicCoverage with
      | some tc => recMerge st.topicCoverage tc
      | none => st.topicCoverage
    currentDifficulty := u.currentDifficulty.getD st.currentDifficulty
    approximateTokens := u.approximateTokens.getD st.approximateTokens }

theorem appendTurn_none (now : Nat) (s : SessionStore) (id : String)
    (turn : Turn) (u : TurnUpdates) (h : (getState now s id).1 = none) :
    appendTurn now s id turn u = (none, (getState now s id).2) := by
  unfold appendTurn
  simp only [h]

theorem appendTurn_some (now : Nat) (s : SessionStore) (id : String)
    (turn : Turn) (u : TurnUpdates) (st : InterviewState)
    (h : (getState now s id).1 = some st) :
    appendTurn now s id turn u =
      (some (appendedState st turn u),
       setState now (getState now s id).2 id (appendedState st turn u)) := by
  unfold appendTurn
  simp only [h]
  cases hp : u.phase <;> cases htc : u.topicCoverage <;>
    cases hd : u.currentDifficulty <;> cases ha : u.approximateTokens <;>
    simp [appendedState, hp, htc, hd, ha]

theorem kvFind_key {α} {s : KVStore α} {k : String} {e : String × α × Nat}
    (h : kvFind s k = some e) : e.1 = k := by
  have := List.find?_some h
  simpa using this

/-! ## Claim theorems -/

/-- C6: the interview phase list is exactly intro, technical, behavioral,
wrap_up, coding — both `InterviewSessionService.getPhaseOrder` and the
strategy engine's private order — and `QuestionStrategyEngine.nextPhase`
maps each phase to its immediate successor in this list and maps `'coding'`
(the last phase) to null. -/
theorem c6_phase_order_and_next_phase :
    sessionGetPhaseOrder = ["intro", "technical", "behavioral", "wrap_up", "coding"]
    ∧ strategyPhaseOrder = ["intro", "technical", "behavioral", "wrap_up", "coding"]
    ∧ nextPhase "intro" = some "technical"
    ∧ nextPhase "technical" = some "behavioral"
    ∧ nextPhase "behavioral" = some "wrap_up"
    ∧ nextPhase "wrap_up" = some "coding"
    ∧ nextPhase "coding" = none := by
  refine ⟨rfl, rfl, ?_, ?_, ?_, ?_, ?_⟩ <;> decide

/-- C4 (code-bug evidence): on the parseable LLM text `{}` (a JSON object
with no numeric fields), `EvaluationEngine.evaluate` produces NaN for score,
relevance, structure, depth and normalizedScore — the `?? 0` fallbacks in
the source never fire because `Number` returns NaN rather than
null/undefined — contradicting the claimed bounds score ∈ [0,10] and
normalizedScore ∈ [0,1].  `maxScore = 10` and the unparseable-text branch
behave as claimed. -/
theorem c4_evaluate_nan_on_empty_object :
    (evaluate (some (Json.jobj [])) ["communication"]).score = none
    ∧ (evaluate (some (Json.jobj [])) ["communication"]).relevance = none
    ∧ (evaluate (some (Json.jobj [])) ["communication"]).structureScore = none
    ∧ (evaluate (some (Json.jobj [])) ["communication"]).depth = none
    ∧ (evaluate (some (Json.jobj [])) ["communication"]).normalizedScore = none
    ∧ (evaluate (some (Json.jobj [])) ["communication"]).maxScore = some 10
    ∧ evaluate none ["communication"] =
        { score := some 0, maxScore := some 10, relevance := some 0,
          structureScore := some 0, depth := some 0,
          competencyIds := ["communication"],
          redFlags := ["Could not parse evaluation"],
          feedbackSnippet := "Evaluation unavailable.",
          normalizedScore := some 0 } := by
  refine ⟨rfl, rfl, rfl, rfl, rfl, rfl, ?_⟩
  unfold evaluate parseEvaluationResponse evalParseFailure MAX_SCORE
  simp [jdiv]

/-- C8: `InterviewSessionService.getState` returns null (without throwing;
the embedding is total) when the session key is absent, expired, or holds a
string that does not parse as JSON; when it returns a state it refreshes the
session TTL to `SESSION_TTL_SECONDS` (4 hours), and `setState` always writes
the serialized state with that same TTL. -/
theorem c8_getState_null_cases_and_ttl :
    SESSION_TTL_SECONDS = 4 * 60 * 60
    ∧ ∀ (parse : String → Option InterviewState)
        (encode : InterviewState → String) (now : Nat) (s : RStore)
        (id : String) (st : InterviewState),
      (rfind s (sessionKey id) = none → (getStateRaw parse now s id).1 = none)
      ∧ (∀ e, rfind s (sessionKey id) = some e → now > e.2.2 →
          (getStateRaw parse now s id).1 = none)
      ∧ (∀ e, rfind s (sessionKey id) = some e → parse e.2.1 = none →
          (getStateRaw parse now s id).1 = none)
      ∧ (∀ st', (getStateRaw parse now s id).1 = some st' →
          ∃ raw, parse raw = some st'
            ∧ rfind (getStateRaw parse now s id).2 (sessionKey id)
                = some (sessionKey id, raw, now + SESSION_TTL_SECONDS * 1000))
      ∧ rfind (setStateRaw encode now s id st) (sessionKey id)
          = some (sessionKey id, encode st, now + SESSION_TTL_SECONDS * 1000) := by
  refine ⟨rfl, ?_⟩
  intro parse encode now s id st
  refine ⟨?_, ?_, ?_, ?_, ?_⟩
  · intro h
    unfold getStateRaw rget kvGet
    unfold rfind at h
    simp [h]
  · intro e he hexp
    unfold getStateRaw rget kvGet
    unfold rfind at he
    simp [he, hexp]
  · intro e he hparse
    unfold getStateRaw rget kvGet
    unfold rfind at he
    by_cases hexp : now > e.2.2
    · simp [he, hexp]
    · by_cases hraw : e.2.1 = ""
      · simp [he, hexp, hraw]
      · simp [he, hexp, hraw, hparse]
  · intro st' hsome
    unfold getStateRaw rget kvGet at hsome ⊢
    cases he : kvFind s (sessionKey id) with
    | none => simp [he] at hsome
    | some e =>
      by_cases hexp : now > e.2.2
      · simp [he, hexp] at hsome
      · by_cases hraw : e.2.1 = ""
        · simp [he, hexp, hraw] at hsome
        · cases hparse : parse e.2.1 with
          | none => simp [he, hexp, hraw, hparse] at hsome
          | some stp =>
            simp only [he, hexp, hraw, hparse, if_false, if_neg hexp] at hsome ⊢
            refine ⟨e.2.1, ?_, ?_⟩
            · rw [hparse]
              simp at hsome
              rw [hsome]
            · unfold rfind rexpire
              rw [kvFind_expire_self, he]
              have hek : e.1 = sessionKey id := kvFind_key he
              simp [hek]
  · unfold setStateRaw rfind
    exact kvFind_setex_self now SESSION_TTL_SECONDS s (sessionKey id) (encode st)

def exParse : String → Option InterviewState := fun _ => none

def exEncode : InterviewState → String := fun _ => "serialized"

def exState8 : InterviewState :=
  { interviewId := "i1", candidateId := "c1", role := "technical",
    phase := "intro", startedAt := "t0", turns := [], topicCoverage := [],
    currentDifficulty := "medium", approximateTokens := some 0 }

/-- Witness for C8 at a concrete store: the absent key reads as null, and a
`setState` writes the serialized state with the 4-hour TTL. -/
theorem c8_witness :
    (getStateRaw exParse 7 [] "i1").1 = none
    ∧ rfind (setStateRaw exEncode 7 [] "i1" exState8) (sessionKey "i1")
        = some (sessionKey "i1", exEncode exState8, 7 + SESSION_TTL_SECONDS * 1000) := by
  have h := c8_getState_null_cases_and_ttl.2 exParse exEncode 7 [] "i1" exState8
  exact ⟨h.1 rfl, h.2.2.2.2⟩

/-! ## C5: ConversationManager.buildContext -/

theorem foldl_pushTurn (l : List Turn) (ms : List ContextMessage) (q : ℚ) :
    l.foldl pushTurn (ms, q)
      = (ms ++ l.map turnMessage,
         q + ((l.map (fun t => (estimateTokens t.content : ℚ))).sum)) := by
  induction l generalizing ms q with
  | nil => simp
  | cons t l ih =>
    simp only [List.foldl_cons, List.map_cons, List.sum_cons]
    rw [show pushTurn (ms, q) t
        = (ms ++ [turnMessage t], q + (estimateTokens t.content : ℚ)) from rfl]
    rw [ih]
    simp [List.append_assoc, add_assoc]

def exTurn5 : Turn :=
  { id := "t1", role := "candidate", content := "abcd", timestamp := "ts" }

def exSt5 : InterviewState :=
  { interviewId := "i", candidateId := "c", role := "technical",
    phase := "intro", startedAt := "t", turns := [exTurn5],
    topicCoverage := [], currentDifficulty := "medium",
    approximateTokens := some 5 }

/-- Counterexample to C5 as stated: for a state with `approximateTokens = 5`
and a single candidate turn of text `"abcd"` (no summarization), the
returned `approximateTokens` is 6 — the stored `state.approximateTokens`
plus the turn estimate — while the sum over the included texts of
`ceil(length/4)` is 1. -/
theorem c5_counterexample :
    (buildContext exSt5).priorSummary = none
    ∧ (buildContext exSt5).approximateTokens = 6
    ∧ (((buildContext exSt5).messages.map
        (fun m => (estimateTokens m.content : ℚ))).sum) = 1
    ∧ (6 : ℚ) ≠ 1 := by
  have hb : buildContext exSt5 =
      { messages := [turnMessage exTurn5], priorSummary := none,
        approximateTokens := 5 + (estimateTokens "abcd" : ℚ) } := by
    unfold buildContext exSt5
    rw [if_neg (by norm_num [jOrZero, SUMMARIZE_THRESHOLD, maxContextTokens])]
    rw [show jOrZero (some 5) = (5 : ℚ) from rfl]
    rw [show ([exTurn5].foldl pushTurn ([], (5 : ℚ)))
        = ([] ++ [exTurn5].map turnMessage,
           (5 : ℚ) + (([exTurn5].map (fun t => (estimateTokens t.content : ℚ))).sum))
      from foldl_pushTurn [exTurn5] [] 5]
    simp [exTurn5]
  rw [hb]
  refine ⟨rfl, ?_, ?_, by norm_num⟩
  · have : estimateTokens "abcd" = 1 := by decide
    rw [this]
    norm_num
  · have : estimateTokens (turnMessage exTurn5).content = 1 := by decide
    simp [this]

/-- C5 (amended): `buildContext` summarizes exactly when
`state.approximateTokens` (0 when falsy) exceeds `SUMMARIZE_THRESHOLD`
(= 9000, 75% of the 12000-token budget) and there are more than 10 turns;
in that case `priorSummary` is the stub and the messages are the last 12
turns, with `approximateTokens` the stub estimate plus the sum of the
included turn estimates; otherwise there is no `priorSummary`, one message
per stored turn, and `approximateTokens` is `state.approximateTokens` plus
the sum of all turn estimates (not the bare sum, as the original claim
said).  Messages preserve turn order, mapping `'ai'` to `'assistant'` and
anything else (in particular `'candidate'`) to `'user'`; estimates are
`ceil(length/4)`. -/
theorem c5_buildContext_amended :
    maxContextTokens = 12000 ∧ SUMMARIZE_THRESHOLD = 9000
    ∧ ∀ st : InterviewState,
      (jOrZero st.approximateTokens > (SUMMARIZE_THRESHOLD : ℚ) ∧ st.turns.length > 10 →
        buildContext st =
          { messages := (st.turns.drop (st.turns.length - 12)).map turnMessage,
            priorSummary := some summaryStub,
            approximateTokens := (estimateTokens summaryStub : ℚ)
              + (((st.turns.drop (st.turns.length - 12)).map
                  (fun t => (estimateTokens t.content : ℚ))).sum) })
      ∧ (¬(jOrZero st.approximateTokens > (SUMMARIZE_THRESHOLD : ℚ) ∧ st.turns.length > 10) →
        buildContext st =
          { messages := st.turns.map turnMessage,
            priorSummary := none,
            approximateTokens := jOrZero st.approximateTokens
              + ((st.turns.map (fun t => (estimateTokens t.content : ℚ))).sum) }) := by
  refine ⟨rfl, rfl, ?_⟩
  intro st
  constructor
  · intro h
    unfold buildContext
    rw [if_pos h]
    simp only [foldl_pushTurn]
    simp
  · intro h
    unfold buildContext
    rw [if_neg h]
    simp only [foldl_pushTurn]
    simp

/-- Witness for C5 (amended) at the concrete non-summarizing state. -/
theorem c5_witness :
    buildContext exSt5 =
      { messages := exSt5.turns.map turnMessage,
        priorSummary := none,
        approximateTokens := jOrZero exSt5.approximateTokens
          + ((exSt5.turns.map (fun t => (estimateTokens t.content : ℚ))).sum) } :=
  (c5_buildContext_amended.2.2 exSt5).2
    (by norm_num [exSt5, jOrZero, SUMMARIZE_THRESHOLD, maxContextTokens])

/-! ## C9: recommendation rules -/

/-- C9: the recommendation in a built report is `'no_hire'` whenever the
aggregated (deduplicated) red-flag list has more than 2 entries, regardless
of score; otherwise it follows the pct thresholds (pct = overall/max, 0 when
maxScore is 0; JS comparison semantics, so a NaN pct falls through to
`'no_hire'`): ≥ 0.8 strong_hire, ≥ 0.6 hire, ≥ 0.4 borderline, below that
no_hire; in particular a state with no evaluated candidate turns yields
`'no_hire'`. -/
theorem c9_recommendation (nowIso : String) (st : InterviewState) :
    ((buildReport nowIso st).redFlags.length > 2 →
      (buildReport nowIso st).recommendation = "no_hire")
    ∧ (¬ (buildReport nowIso st).redFlags.length > 2 →
      (buildReport nowIso st).recommendation =
        (let pct := if jgt (buildReport nowIso st).maxScore (some 0) then
                      jdiv (buildReport nowIso st).overallScore (buildReport nowIso st).maxScore
                    else some 0
         if jge pct (some (8/10)) then "strong_hire"
         else if jge pct (some (6/10)) then "hire"
         else if jge pct (some (4/10)) then "borderline"
         else "no_hire"))
    ∧ ((∀ t ∈ st.turns, t.role = "candidate" → t.evaluation = none) →
      (buildReport nowIso st).recommendation = "no_hire") := by
  have hrec : (buildReport nowIso st).recommendation
      = recommend (buildReport nowIso st).overallScore
          (buildReport nowIso st).maxScore (buildReport nowIso st).redFlags := rfl
  refine ⟨?_, ?_, ?_⟩
  · intro h
    rw [hrec]
    unfold recommend
    rw [if_pos h]
  · intro h
    rw [hrec]
    unfold recommend
    rw [if_neg h]
  · intro hyp
    have hfil : st.turns.filter (fun t => t.role == "candidate" && t.evaluation.isSome) = [] := by
      rw [List.filter_eq_nil_iff]
      intro t ht
      by_cases hr : t.role = "candidate"
      · have := hyp t ht hr
        simp [hr, this]
      · simp [hr]
    have hev : candidateEvaluations st.turns = [] := by
      unfold candidateEvaluations
      rw [hfil]
      rfl
    have hagg : (buildReport nowIso st).recommendation
        = recommend (some 0) (some ((0 : ℕ) * MAX_SCORE_PER_ANSWER)) [] := by
      rw [hrec]
      unfold buildReport
      simp only [hev]
      rfl
    rw [hagg]
    unfold recommend
    have h010 : ((0 : ℕ) : ℚ) * MAX_SCORE_PER_ANSWER = 0 := by
      norm_num
    rw [if_neg (by norm_num)]
    have hgt : jgt (some ((0 : ℕ) * MAX_SCORE_PER_ANSWER)) (some 0) = false := by
      unfold jgt
      rw [h010]
      norm_num
    rw [hgt]
    simp only [Bool.false_eq_true, if_false]
    have h8 : jge (some 0) (some (8/10)) = false := by
      unfold jge
      norm_num
    have h6 : jge (some 0) (some (6/10)) = false := by
      unfold jge
      norm_num
    have h4 : jge (some 0) (some (4/10)) = false := by
      unfold jge
      norm_num
    rw [h8, h6, h4]
    simp

/-- Witness for C9 at a concrete state with no evaluated candidate turns. -/
theorem c9_witness :
    (buildReport "tEnd" exState8).recommendation = "no_hire" :=
  (c9_recommendation "tEnd" exState8).2.2
    (by intro t ht; simp [exState8] at ht)

/-! ## C3: report aggregation and Q/A pairing -/

theorem jadd_some_zero (x : JNum) : jadd x (some 0) = x := by
  cases x <;> simp [jadd]

theorem jadd_assoc (a b c : JNum) : jadd (jadd a b) c = jadd a (jadd b c) := by
  cases a <;> cases b <;> cases c <;> simp [jadd, add_assoc]

theorem foldl_jadd (l : List JNum) (i : JNum) :
    l.foldl jadd i = jadd i (l.foldr jadd (some 0)) := by
  induction l generalizing i with
  | nil => simp [jadd_some_zero]
  | cons x l ih =>
    simp only [List.foldl_cons, List.foldr_cons]
    rw [ih, jadd_assoc]

theorem candidateEvaluations_scores (ts : List Turn) :
    (candidateEvaluations ts).map (·.score)
      = ts.filterMap (fun t =>
          if t.role = "candidate" then t.evaluation.map (·.score) else none) := by
  induction ts with
  | nil => rfl
  | cons t ts ih =>
    unfold candidateEvaluations at ih ⊢
    simp only [List.filter_cons, List.filterMap_cons]
    by_cases hr : t.role = "candidate"
    · cases he : t.evaluation with
      | none => simp [hr, he, ih]
      | some e => simp [hr, he, ih]
    · simp [hr, ih]

theorem candidateEvaluations_length (ts : List Turn) :
    (candidateEvaluations ts).length
      = (ts.filter (fun t => t.role == "candidate" && t.evaluation.isSome)).length := by
  induction ts with
  | nil => rfl
  | cons t ts ih =>
    unfold candidateEvaluations at ih ⊢
    simp only [List.filter_cons]
    by_cases hr : t.role = "candidate"
    · cases he : t.evaluation with
      | none => simp [hr, he, ih]
      | some e => simp [hr, he, ih]
    · simp [hr, ih]

/-- Content of the nearest preceding AI turn, with a default. -/
def lastAiContentD (d : String) (ts : List Turn) : String :=
  match (ts.filter (fun t => t.role == "ai")).getLast? with
  | some t => t.content
  | none => d

theorem lastAiContentD_cons (d : String) (t : Turn) (ts : List Turn) :
    lastAiContentD d (t :: ts)
      = lastAiContentD (if t.role == "ai" then t.content else d) ts := by
  unfold lastAiContentD
  cases hr : (t.role == "ai") with
  | true =>
    simp only [List.filter_cons, hr, if_true]
    cases hf : ts.filter (fun u => u.role == "ai") with
    | nil => simp
    | cons a l =>
      rw [List.getLast?_cons_cons]
      cases hg : (a :: l).getLast? with
      | some u => rfl
      | none => simp at hg
  | false =>
    simp only [List.filter_cons, hr, Bool.false_eq_true, if_false]

theorem qaLoop_length (lq : String) (ts : List Turn) :
    (qaLoop lq ts).length = (ts.filter (fun t => t.role == "candidate")).length := by
  induction ts generalizing lq with
  | nil => rfl
  | cons t ts ih =>
    unfold qaLoop
    simp only [List.filter_cons]
    cases hr : (t.role == "candidate") with
    | true => simp [hr, ih]
    | false => simp [hr, ih]

theorem qaLoop_get (lq : String) (pre : List Turn) (t : Turn) (post : List Turn)
    (h : t.role = "candidate") :
    ((qaLoop lq (pre ++ t :: post))[(pre.filter (fun u => u.role == "candidate")).length]?).map
      (fun e => (e.question, e.answer))
      = some (lastAiContentD lq pre, t.content) := by
  induction pre generalizing lq with
  | nil =>
    unfold qaLoop
    have hai : (t.role == "ai") = false := by simp [h]
    have hc : (t.role == "candidate") = true := by simp [h]
    simp [hai, hc, lastAiContentD]
  | cons p pre ih =>
    rw [List.cons_append]
    unfold qaLoop
    rw [lastAiContentD_cons]
    simp only [List.filter_cons]
    cases hc : (p.role == "candidate") with
    | true =>
      have hp : p.role = "candidate" := by simpa using hc
      have hai : (p.role == "ai") = false := by simp [hp]
      simp only [hai, Bool.false_eq_true, if_false, hc, if_true,
        List.length_cons]
      simp only [List.getElem?_cons_succ]
      exact ih lq
    | false =>
      simp only [hc, Bool.false_eq_true, if_false]
      cases hai : (p.role == "ai") with
      | true =>
        simp only [hai, if_true]
        exact ih p.content
      | false =>
        simp only [hai, Bool.false_eq_true, if_false]
        exact ih lq

theorem jadd_zero_left (x : JNum) : jadd (some 0) x = x := by
  cases x <;> simp [jadd]

/-- C3: in a built report, `overallScore` is the sum of the evaluation
scores over the candidate turns that carry an evaluation, `maxScore` is 10
times the number of such evaluations, and `questionAnswerSummary` has
exactly one entry per candidate turn, in turn order (the j-th candidate
turn, counted by the candidate turns preceding it, yields the j-th entry),
each pairing the turn's content with the content of the nearest preceding
AI turn (`'Question'` when none precedes). -/
theorem c3_buildReport_aggregation (nowIso : String) (st : InterviewState) :
    (buildReport nowIso st).overallScore
      = (st.turns.filterMap (fun t =>
          if t.role = "candidate" then t.evaluation.map (·.score) else none)).foldr
          jadd (some 0)
    ∧ (buildReport nowIso st).maxScore
      = some (10 * ((st.turns.filter
          (fun t => t.role == "candidate" && t.evaluation.isSome)).length : ℚ))
    ∧ (buildReport nowIso st).questionAnswerSummary.length
      = (st.turns.filter (fun t => t.role == "candidate")).length
    ∧ (∀ pre t post, st.turns = pre ++ t :: post → t.role = "candidate" →
        (((buildReport nowIso st).questionAnswerSummary)[(pre.filter
            (fun u => u.role == "candidate")).length]?).map
          (fun e => (e.question, e.answer))
          = some (lastAiContentD "Question" pre, t.content)) := by
  refine ⟨?_, ?_, ?_, ?_⟩
  · have h0 : (buildReport nowIso st).overallScore
        = (candidateEvaluations st.turns).foldl (fun sum e => jadd sum e.score) (some 0) := rfl
    rw [h0]
    rw [show ((candidateEvaluations st.turns).foldl (fun sum e => jadd sum e.score) (some 0))
        = (((candidateEvaluations st.turns).map (·.score)).foldl jadd (some 0)) from
      (List.foldl_map _ _ _ _).symm]
    rw [foldl_jadd, jadd_zero_left, candidateEvaluations_scores]
  · have h0 : (buildReport nowIso st).maxScore
        = some (((candidateEvaluations st.turns).length : ℚ) * MAX_SCORE_PER_ANSWER) := rfl
    rw [h0, candidateEvaluations_length]
    unfold MAX_SCORE_PER_ANSWER
    rw [mul_comm]
  · have h0 : (buildReport nowIso st).questionAnswerSummary
        = qaLoop "Question" st.turns := rfl
    rw [h0, qaLoop_length]
  · intro pre t post hsplit hrole
    have h0 : (buildReport nowIso st).questionAnswerSummary
        = qaLoop "Question" st.turns := rfl
    rw [h0, hsplit]
    exact qaLoop_get "Question" pre t post hrole

def exAi3 : Turn :=
  { id := "a1", role := "ai", content := "What is your background?",
    timestamp := "t1", questionId := some "intro-1" }

def exCand3 : Turn :=
  { id := "c1", role := "candidate", content := "I studied engineering.",
    timestamp := "t2" }

def exSt3 : InterviewState :=
  { interviewId := "i3", candidateId := "c3", role := "technical",
    phase := "intro", startedAt := "t0", turns := [exAi3, exCand3],
    topicCoverage := [], currentDifficulty := "medium",
    approximateTokens := some 0 }

/-- Witness for C3: the single candidate turn of a concrete two-turn state
is paired with the preceding AI question. -/
theorem c3_witness :
    (((buildReport "z" exSt3).questionAnswerSummary)[([exAi3].filter
        (fun u => u.role == "candidate")).length]?).map
      (fun e => (e.question, e.answer))
      = some (lastAiContentD "Question" [exAi3], exCand3.content) :=
  (c3_buildReport_aggregation "z" exSt3).2.2.2 [exAi3] exCand3 [] rfl rfl

/-! ## C10: appendTurn frame conditions -/

/-- C10: for an existing session, `appendTurn` appends exactly the given
turn and touches only the fields named in `updates` — phase,
currentDifficulty and approximateTokens are overwritten when named,
topicCoverage is merged key-by-key with named keys overriding and the rest
kept — while interviewId, candidateId, role, startedAt, resumeContext,
preferredDifficulty, customQuestions, focusAreas and durationMinutes are
unchanged; when the session does not exist it returns null and writes
nothing (the store content observable at `now` is unchanged). -/
theorem c10_appendTurn_frame (now : Nat) (s : SessionStore) (id : String)
    (turn : Turn) (u : TurnUpdates) :
    (∀ st, (getState now s id).1 = some st →
      (appendTurn now s id turn u).1 = some (appendedState st turn u)
      ∧ (appendedState st turn u).turns = st.turns ++ [turn]
      ∧ (appendedState st turn u).phase = u.phase.getD st.phase
      ∧ (appendedState st turn u).currentDifficulty
          = u.currentDifficulty.getD st.currentDifficulty
      ∧ (appendedState st turn u).approximateTokens
          = u.approximateTokens.getD st.approximateTokens
      ∧ (∀ k, recGet (appendedState st turn u).topicCoverage k =
          match u.topicCoverage with
          | some tc =>
            (match recGet tc k with
             | some v => some v
             | none => recGet st.topicCoverage k)
          | none => recGet st.topicCoverage k)
      ∧ (appendedState st turn u).interviewId = st.interviewId
      ∧ (appendedState st turn u).candidateId = st.candidateId
      ∧ (appendedState st turn u).role = st.role
      ∧ (appendedState st turn u).startedAt = st.startedAt
      ∧ (appendedState st turn u).resumeContext = st.resumeContext
      ∧ (appendedState st turn u).preferredDifficulty = st.preferredDifficulty
      ∧ (appendedState st turn u).customQuestions = st.customQuestions
      ∧ (appendedState st turn u).focusAreas = st.focusAreas
      ∧ (appendedState st turn u).durationMinutes = st.durationMinutes)
    ∧ ((getState now s id).1 = none →
      (appendTurn now s id turn u).1 = none
      ∧ ∀ k, liveGet now (appendTurn now s id turn u).2 k = liveGet now s k) := by
  constructor
  · intro st h
    rw [appendTurn_some now s id turn u st h]
    refine ⟨rfl, rfl, rfl, rfl, rfl, ?_, rfl, rfl, rfl, rfl, rfl, rfl, rfl, rfl, rfl⟩
    intro k
    unfold appendedState
    cases htc : u.topicCoverage with
    | none => rfl
    | some tc =>
      simp only []
      exact recGet_recMerge st.topicCoverage tc k
  · intro h
    rw [appendTurn_none now s id turn u h]
    refine ⟨rfl, ?_⟩
    intro k
    exact liveGet_getState_snd now s id k

def exTurn10 : Turn :=
  { id := "t10", role := "candidate", content := "my answer",
    timestamp := "ts10" }

def exUpd10 : TurnUpdates :=
  { topicCoverage := some [("intro-1", true)] }

def exStore10 : SessionStore :=
  [("ai_interview:session:i1", exState8, 999999999999)]

/-- Witness for C10 at a concrete store holding one live session. -/
theorem c10_witness :
    (appendTurn 0 exStore10 "i1" exTurn10 exUpd10).1
        = some (appendedState exState8 exTurn10 exUpd10)
      ∧ (appendedState exState8 exTurn10 exUpd10).turns
        = exState8.turns ++ [exTurn10]
      ∧ (appendedState exState8 exTurn10 exUpd10).phase = exState8.phase := by
  have h := (c10_appendTurn_frame 0 exStore10 "i1" exTurn10 exUpd10).1
    exState8 (by rfl)
  exact ⟨h.1, h.2.1, h.2.2.1⟩

/-! ## C1: submitAnswer failure paths -/

/-- C1: `submitAnswer` fails with `'session_not_found'` when no session
state exists, and with `'no_pending_question'` when the session exists but
has no turns or its last turn is not an AI turn; in both cases no turn is
appended and the stored session content observable at `now` is unchanged
(only the TTL of a live entry is refreshed). -/
theorem c1_submitAnswer_failures (env : SubmitAnswerEnv) (now : Nat)
    (store : SessionStore) (id answerText : String) :
    ((getState now store id).1 = none →
      (submitAnswer env now store id answerText).1
        = { success := false, state := none,
            failureReason := some "session_not_found" }
      ∧ ∀ k, liveGet now (submitAnswer env now store id answerText).2 k
          = liveGet now store k)
    ∧ (∀ st, (getState now store id).1 = some st →
        (st.turns = [] ∨ ∃ lt, st.turns.getLast? = some lt ∧ lt.role ≠ "ai") →
        (submitAnswer env now store id answerText).1
          = { success := false, state := none,
              failureReason := some "no_pending_question" }
        ∧ ∀ k, liveGet now (submitAnswer env now store id answerText).2 k
            = liveGet now store k) := by
  constructor
  · intro h
    unfold submitAnswer
    simp only [h]
    exact ⟨by trivial, fun k => liveGet_getState_snd now store id k⟩
  · intro st h hturns
    unfold submitAnswer
    simp only [h]
    rcases hturns with hnil | ⟨lt, hlast, hrole⟩
    · rw [hnil]
      simp only [List.getLast?_nil]
      exact ⟨by trivial, fun k => liveGet_getState_snd now store id k⟩
    · rw [hlast]
      simp only []
      rw [if_pos (by simpa using hrole)]
      exact ⟨by trivial, fun k => liveGet_getState_snd now store id k⟩

def exDb : Db := fun _ _ => none

def exEnv : SubmitAnswerEnv :=
  { db := exDb, evalParsed := none, aiReply := "Noted. Next question.",
    candTurnId := "ct", candTs := "ts1", aiTurnId := "at", aiTs := "ts2",
    nowIso := "iso" }

/-- Witness for C1: submitting against an empty store fails with
`'session_not_found'`. -/
theorem c1_witness :
    (submitAnswer exEnv 0 [] "nope" "hello").1
      = { success := false, state := none,
          failureReason := some "session_not_found" } :=
  ((c1_submitAnswer_failures exEnv 0 [] "nope" "hello").1 rfl).1

/-! ## C2: end-of-interview condition -/

theorem go_succ_isSome (db : Db) (fuel : Nat) (input : NextQuestionInput)
    (h : ¬(input.state.phase = "coding" ∧ input.state.role ≠ "technical")) :
    (getNextQuestionGo db (fuel + 1) input).isSome = true := by
  have hcond : (input.state.phase == "coding" && input.state.role != "technical") = false := by
    cases hb : (input.state.phase == "coding" && input.state.role != "technical") with
    | false => rfl
    | true =>
      exfalso
      apply h
      simpa [Bool.and_eq_true, beq_iff_eq, bne_iff_ne] using hb
  simp only [getNextQuestionGo]
  simp only [hcond, Bool.false_eq_true, if_false]
  generalize (if input.forceNextPhase = true
      then (nextPhase input.state.phase).getD input.state.phase
      else input.state.phase) = ph
  cases hcb : customQuestionBranch input.state ph with
  | some r => rfl
  | none =>
    cases hcod : codingBranch input.state ph with
    | some r => rfl
    | none =>
      cases hlen : ((getQuestionsForRoleAndPhase db input.state.role ph).length == 0) with
      | true => rfl
      | false =>
        simp only [Bool.false_eq_true, if_false]
        cases hfu : followUpBranch input.requestFollowUp (lastQuestionIdOf input.state)
            (getQuestionsForRoleAndPhase db input.state.role ph
              ++ DEMO_QUESTIONS.filter (fun q => q.role == input.state.role)) ph with
        | some r => rfl
        | none =>
          have hc : getQuestionsForRoleAndPhase db input.state.role ph ≠ [] := by
            intro hnil
            rw [hnil] at hlen
            simp at hlen
          simp only []
          generalize hpooldef : (if (List.filter
                (fun q => !coveredIn input.state.topicCoverage q.id)
                (getQuestionsForRoleAndPhase db input.state.role ph)).length > 0
              then List.filter (fun q => !coveredIn input.state.topicCoverage q.id)
                (getQuestionsForRoleAndPhase db input.state.role ph)
              else getQuestionsForRoleAndPhase db input.state.role ph) = pool
          have hpool : pool ≠ [] := by
            rw [← hpooldef]
            split
            next hgt =>
              intro hnil
              rw [hnil] at hgt
              simp at hgt
            next => exact hc
          cases hh : (if (List.filter
                (fun q => q.difficulty == input.state.currentDifficulty) pool).length > 0
              then List.filter (fun q => q.difficulty == input.state.currentDifficulty) pool
              else pool).head? with
          | some choice => rfl
          | none =>
            exfalso
            rw [List.head?_eq_none_iff] at hh
            revert hh
            split
            next hgt =>
              intro hnil
              rw [hnil] at hgt
              simp at hgt
            next => exact hpool

theorem getNextQuestion_ne_some (db : Db) (input : NextQuestionInput)
    (h1 : input.state.phase = "coding") (h2 : input.state.role ≠ "technical")
    (r : NextQuestionResult) : getNextQuestion db input ≠ some r := by
  intro hs
  show False
  have hn : getNextQuestion db input = none := by
    show getNextQuestionGo db (5 + 1) input = none
    simp only [getNextQuestionGo]
    have hcond : (input.state.phase == "coding" && input.state.role != "technical") = true := by
      simp [Bool.and_eq_true, beq_iff_eq, bne_iff_ne, h1, h2]
    simp only [hcond, if_true]
  rw [hn] at hs
  exact Option.noConfusion hs

theorem getNextQuestion_none_iff (db : Db) (input : NextQuestionInput) :
    getNextQuestion db input = none
      ↔ (input.state.phase = "coding" ∧ input.state.role ≠ "technical") := by
  constructor
  · intro h
    by_contra hcon
    have hs := go_succ_isSome db 5 input hcon
    have h6 : getNextQuestionGo db (5 + 1) input = none := h
    rw [h6] at hs
    simp at hs
  · rintro ⟨h1, h2⟩
    show getNextQuestionGo db (5 + 1) input = none
    simp only [getNextQuestionGo]
    have hcond : (input.state.phase == "coding" && input.state.role != "technical") = true := by
      simp [Bool.and_eq_true, beq_iff_eq, bne_iff_ne, h1, h2]
    simp only [hcond, if_true]

/-- C2: `getNextQuestion` returns null exactly when the state's phase is
`'coding'` and the role is not `'technical'` (regardless of the
requestFollowUp/forceNextPhase flags); consequently, on the success path,
`submitAnswer` ends the interview and builds the final report exactly when
the session has reached the coding phase with a non-technical role. -/
theorem c2_interview_end_condition :
    (∀ (db : Db) (input : NextQuestionInput),
      getNextQuestion db input = none
        ↔ (input.state.phase = "coding" ∧ input.state.role ≠ "technical"))
    ∧ ∀ (env : SubmitAnswerEnv) (now : Nat) (store : SessionStore)
        (id answer : String) (st : InterviewState) (lt : Turn),
        (getState now store id).1 = some st →
        st.turns.getLast? = some lt → lt.role = "ai" →
        ((submitAnswer env now store id answer).1.report.isSome = true
          ↔ (st.phase = "coding" ∧ st.role ≠ "technical")) := by
  refine ⟨fun db input => getNextQuestion_none_iff db input, ?_⟩
  intro env now store id answer st lt h hlast hrole
  unfold submitAnswer
  simp only [h, hlast]
  have hrb : (lt.role != "ai") = false := by simp [hrole]
  simp only [hrb, Bool.false_eq_true, if_false]
  have hg2 : (getState now (getState now store id).2 id).1 = some st := by
    rw [getState_fst_getState_snd]
    exact h
  rw [appendTurn_some now (getState now store id).2 id _ _ st hg2]
  rw [getState_fst, liveGet_setState_self]
  simp only []
  split
  next hnone =>
    exact ⟨fun _ => (getNextQuestion_none_iff env.db _).mp hnone, fun _ => rfl⟩
  next nq hsome =>
    constructor
    · intro hfalse
      exact absurd hfalse (by simp)
    · intro hrhs
      exact absurd hsome (getNextQuestion_ne_some env.db _ hrhs.1 hrhs.2 nq)

def exAiTurn2 : Turn :=
  { id := "a2", role := "ai", content := "Any questions for us?",
    timestamp := "t1", questionId := some "wrap-1" }

def exSt2 : InterviewState :=
  { interviewId := "i2", candidateId := "c2", role := "sales",
    phase := "coding", startedAt := "t0", turns := [exAiTurn2],
    topicCoverage := [], currentDifficulty := "medium",
    approximateTokens := some 0 }

def exStore2 : SessionStore :=
  [("ai_interview:session:i2", exSt2, 999999999999)]

/-- Witness for C2: a sales-role session that reached the coding phase gets
a final report from `submitAnswer`. -/
theorem c2_witness :
    (submitAnswer exEnv 0 exStore2 "i2" "my answer").1.report.isSome = true :=
  (c2_interview_end_condition.2 exEnv 0 exStore2 "i2" "my answer" exSt2
    exAiTurn2 rfl rfl rfl).mpr ⟨rfl, by decide⟩

/-! ## C7: coverage-then-difficulty selection -/

def exCustomQ7 : ScheduledCustomQuestion :=
  { text := "Describe your most recent project in detail.",
    difficulty := "medium" }

def exSt7 : InterviewState :=
  { interviewId := "i7", candidateId := "c7", role := "technical",
    phase := "technical", startedAt := "t0", turns := [],
    topicCoverage := [], currentDifficulty := "medium",
    customQuestions := some [exCustomQ7], approximateTokens := some 0 }

/-- Counterexample to C7 as stated: a technical-phase state with a pending
recruiter custom question has a non-empty role/phase pool (the demo bank
gives tech-1, tech-2, tech-follow) and no follow-up applies, yet
`getNextQuestion` returns the custom question `custom-0`, not the first
question `tech-1` of the coverage/difficulty-filtered pool. -/
theorem c7_counterexample :
    (getNextQuestion exDb { state := exSt7 }).map (·.questionId) = some "custom-0"
    ∧ ((let candidates := getQuestionsForRoleAndPhase exDb exSt7.role exSt7.phase
        let uncovered := candidates.filter
          (fun q => !(coveredIn exSt7.topicCoverage q.id))
        let pool := if uncovered.length > 0 then uncovered else candidates
        let byDifficulty := pool.filter
          (fun q => q.difficulty == exSt7.currentDifficulty)
        (if byDifficulty.length > 0 then byDifficulty else pool).head?).map (·.id))
      = some "tech-1"
    ∧ (getQuestionsForRoleAndPhase exDb exSt7.role exSt7.phase).length > 0
    ∧ ("custom-0" : String) ≠ "tech-1" := by
  refine ⟨rfl, rfl, by decide, by decide⟩

/-- C7 (amended): for every state whose role/phase question pool is
non-empty, with forceNextPhase unset, not in the early-return case (coding
phase with non-technical role), for which neither the recruiter
custom-question branch nor the coding-phase branch yields a question, and
for which no follow-up applies, `getNextQuestion` selects by coverage first
and difficulty second: it restricts the pool to questions whose id is not
marked in topicCoverage (falling back to the whole pool when every question
is covered), then to questions matching `currentDifficulty` (falling back
to the coverage-filtered pool when none match), and returns the first
question of the resulting list. -/
theorem c7_selection_amended (db : Db) (input : NextQuestionInput)
    (h0 : ¬(input.state.phase = "coding" ∧ input.state.role ≠ "technical"))
    (hfp : input.forceNextPhase = false)
    (hcb : customQuestionBranch input.state input.state.phase = none)
    (hcod : codingBranch input.state input.state.phase = none)
    (hc : getQuestionsForRoleAndPhase db input.state.role input.state.phase ≠ [])
    (hfu : followUpBranch input.requestFollowUp (lastQuestionIdOf input.state)
        (getQuestionsForRoleAndPhase db input.state.role input.state.phase
          ++ DEMO_QUESTIONS.filter (fun q => q.role == input.state.role))
        input.state.phase = none) :
    (getNextQuestion db input).map
        (fun r => (r.questionId, r.questionText, r.difficulty))
      = ((let candidates := getQuestionsForRoleAndPhase db input.state.role input.state.phase
          let uncovered := candidates.filter
            (fun q => !(coveredIn input.state.topicCoverage q.id))
          let pool := if uncovered.length > 0 then uncovered else candidates
          let byDifficulty := pool.filter
            (fun q => q.difficulty == input.state.currentDifficulty)
          (if byDifficulty.length > 0 then byDifficulty else pool).head?).map
        (fun q => (q.id, q.text, q.difficulty))) := by
  have hcond : (input.state.phase == "coding" && input.state.role != "technical") = false := by
    cases hb : (input.state.phase == "coding" && input.state.role != "technical") with
    | false => rfl
    | true =>
      exfalso
      apply h0
      simpa [Bool.and_eq_true, beq_iff_eq, bne_iff_ne] using hb
  show (getNextQuestionGo db (5 + 1) input).map
      (fun r => (r.questionId, r.questionText, r.difficulty)) = _
  simp only [getNextQuestionGo]
  simp only [hcond, Bool.false_eq_true, if_false, hfp]
  simp only [hcb, hcod]
  have hlen : ((getQuestionsForRoleAndPhase db input.state.role input.state.phase).length == 0)
      = false := by
    cases hl : ((getQuestionsForRoleAndPhase db input.state.role input.state.phase).length == 0) with
    | false => rfl
    | true =>
      exfalso
      apply hc
      have hz : (getQuestionsForRoleAndPhase db input.state.role input.state.phase).length = 0 := by
        simpa using hl
      exact List.length_eq_zero.mp hz
  simp only [hlen, Bool.false_eq_true, if_false]
  simp only [hfu]
  generalize hpooldef : (if (List.filter
        (fun q => !coveredIn input.state.topicCoverage q.id)
        (getQuestionsForRoleAndPhase db input.state.role input.state.phase)).length > 0
      then List.filter (fun q => !coveredIn input.state.topicCoverage q.id)
        (getQuestionsForRoleAndPhase db input.state.role input.state.phase)
      else getQuestionsForRoleAndPhase db input.state.role input.state.phase) = pool
  have hpool : pool ≠ [] := by
    rw [← hpooldef]
    split
    next hgt =>
      intro hnil
      rw [hnil] at hgt
      simp at hgt
    next => exact hc
  cases hh : (if (List.filter
        (fun q => q.difficulty == input.state.currentDifficulty) pool).length > 0
      then List.filter (fun q => q.difficulty == input.state.currentDifficulty) pool
      else pool).head? with
  | some choice => rfl
  | none =>
    exfalso
    rw [List.head?_eq_none_iff] at hh
    revert hh
    split
    next hgt =>
      intro hnil
      rw [hnil] at hgt
      simp at hgt
    next => exact hpool

def exSt7b : InterviewState :=
  { interviewId := "i7b", candidateId := "c7", role := "technical",
    phase := "technical", startedAt := "t0", turns := [],
    topicCoverage := [], currentDifficulty := "medium",
    approximateTokens := some 0 }

/-- Witness for C7 (amended): with no custom questions pending and no
follow-up, the first uncovered medium-difficulty demo question (tech-1) is
selected. -/
theorem c7_witness :
    (getNextQuestion exDb { state := exSt7b }).map
        (fun r => (r.questionId, r.questionText, r.difficulty))
      = some ("tech-1",
          "Describe a technical challenge you recently solved. What was your approach and outcome?",
          "medium") := by
  have h := c7_selection_amended exDb { state := exSt7b }
    (by intro hx; exact absurd hx.1 (by decide)) rfl rfl rfl (by decide) rfl
  rw [h]
  rfl
